import Mathlib

/-!
Shallow embedding of the approval/pullback reconciliation engine of the
document-NFT custody backend (controllers `tokenController`/`approvalController`,
service `blockchainService`, event handlers in `litProtocolService`, and the
mongoose models `Approval`, `ERC20Approval`, `NFT`, `ERC20Pullback`).

The blockchain gateway is modelled as a record of pure functions giving the
outcome each RPC call would have at call time (`Except.error` models a thrown
or rejected promise).  The database is a record of lists, one per collection;
mongoose operations (`findOne`, `create`, `findOneAndUpdate`) become list
operations.  Each controller returns, along with the HTTP response, the
resulting database and the ordered trace of blockchain-gateway calls it made,
so that claims about "no chain write happens" become statements about the
trace.
-/

set_option linter.unusedVariables false

namespace OxCap

/-! ## JavaScript string primitives used by the source -/

/-- `String.prototype.toLowerCase` restricted to ASCII (addresses and hashes
in this system are ASCII hex strings). -/
def jsLowerChar (c : Char) : Char :=
  if 'A' ≤ c ∧ c ≤ 'Z' then Char.ofNat (c.toNat + 32) else c

/-- `s.toLowerCase()` on the ASCII strings this system handles. -/
def jsLower (s : String) : String := ⟨s.data.map jsLowerChar⟩

/-- Whitespace characters stripped by the `StringToBigInt` conversion. -/
def isJsWhitespace (c : Char) : Bool :=
  c = ' ' ∨ c = '\t' ∨ c = '\n' ∨ c = '\r' ∨ c = '\x0b' ∨ c = '\x0c'

/-- Leading/trailing whitespace removal, as `StringToBigInt` performs. -/
def jsTrimChars (cs : List Char) : List Char :=
  ((cs.dropWhile isJsWhitespace).reverse.dropWhile isJsWhitespace).reverse

/-- Value of one digit character in bases up to 16. -/
def hexDigitVal? (c : Char) : Option Nat :=
  if '0' ≤ c ∧ c ≤ '9' then some (c.toNat - '0'.toNat)
  else if 'a' ≤ c ∧ c ≤ 'f' then some (c.toNat - 'a'.toNat + 10)
  else if 'A' ≤ c ∧ c ≤ 'F' then some (c.toNat - 'A'.toNat + 10)
  else none

/-- Reads a non-empty digit string in the given base; `none` if any character
is not a digit of that base. -/
def digitsVal? (base : Nat) : List Char → Nat → Option Nat
  | [], acc => some acc
  | c :: cs, acc =>
    match hexDigitVal? c with
    | some d => if d < base then digitsVal? base cs (acc * base + d) else none
    | none => none

/-- Parse of a non-empty digit sequence (rejecting the empty list). -/
def radixVal? (base : Nat) (cs : List Char) : Option Nat :=
  if cs = [] then none else digitsVal? base cs 0

/-- JavaScript `BigInt(string)` (the `StringToBigInt` operation): whitespace is
trimmed, the empty string is `0n`, `0x`/`0o`/`0b` prefixes select the base
(no sign allowed with a prefix), otherwise an optional sign followed by
decimal digits.  Any other input throws, modelled as `none`.  This is an
arbitrary-precision integer conversion: no rounding ever occurs. -/
def jsBigInt? (s : String) : Option Int :=
  match jsTrimChars s.data with
  | [] => some 0
  | '0' :: 'x' :: rest => (radixVal? 16 rest).map Int.ofNat
  | '0' :: 'X' :: rest => (radixVal? 16 rest).map Int.ofNat
  | '0' :: 'o' :: rest => (radixVal? 8 rest).map Int.ofNat
  | '0' :: 'O' :: rest => (radixVal? 8 rest).map Int.ofNat
  | '0' :: 'b' :: rest => (radixVal? 2 rest).map Int.ofNat
  | '0' :: 'B' :: rest => (radixVal? 2 rest).map Int.ofNat
  | '-' :: rest => (radixVal? 10 rest).map (fun n => -(n : Int))
  | '+' :: rest => (radixVal? 10 rest).map Int.ofNat
  | cs => (radixVal? 10 cs).map Int.ofNat

/-- `[...new Set(xs)]`: removes duplicates keeping the first occurrence of
each element, in order.  `seen` accumulates the elements already emitted. -/
def jsSetDedupGo : List String → List String → List String
  | [], _ => []
  | x :: xs, seen =>
    if x ∈ seen then jsSetDedupGo xs seen else x :: jsSetDedupGo xs (x :: seen)

/-- `[...new Set(xs)]` on a list of strings. -/
def jsSetDedup (xs : List String) : List String := jsSetDedupGo xs []

/-- `Promise.all` over fallible computations: succeeds with the list of
results in order, or fails with the first failure. -/
def mapExcept (f : α → Except ε β) : List α → Except ε (List β)
  | [] => .ok []
  | a :: as =>
    match f a with
    | .error e => .error e
    | .ok b =>
      match mapExcept f as with
      | .error e => .error e
      | .ok bs => .ok (b :: bs)

/-! ## Data model (mongoose collections, src/models) -/

/-- `NFT.status` enumeration (src/models/NFT.ts). -/
inductive NFTStatus
  | uploaded | minted | redeemed | pulled | revoked
  deriving DecidableEq, Repr

/-- One document of the `NFT` collection (src/models/NFT.ts).  Only the fields
the reconciliation core reads are kept; `originalFilename` stands for
`documentMetadata.originalFilename` (`none` models a missing sub-document, as
read through `nft.documentMetadata?.originalFilename`). -/
structure NFTRecord where
  tokenId : String
  recipientAddress : String
  investorAddress : String
  tokenURI : String
  status : NFTStatus
  mintTxHash : Option String
  pullTxHash : Option String
  originalFilename : Option String
  createdAt : Nat
  deriving DecidableEq, Repr

/-- One document of the `Approval` collection (src/models/Approval.ts); the
schema has a unique index on `txHash`. -/
structure ApprovalRecord where
  walletAddress : String
  operatorAddress : String
  isApproved : Bool
  txHash : String
  blockNumber : Nat
  timestamp : Nat
  deriving DecidableEq, Repr

/-- One document of the `ERC20Approval` collection (src/models/ERC20Approval.ts);
the schema has a unique compound index on `(txHash, tokenContract)`. -/
structure ERC20ApprovalRecord where
  walletAddress : String
  operatorAddress : String
  tokenContract : String
  tokenSymbol : String
  txHash : String
  blockNumber : Option Nat
  isApproved : Bool
  timestamp : Nat
  deriving DecidableEq, Repr

/-- `ERC20Pullback.status` enumeration. -/
inductive PullbackStatus
  | pending | completed | failed
  deriving DecidableEq, Repr

/-- One document of the `ERC20Pullback` collection (pullback history). -/
structure ERC20PullbackRecord where
  tokenContract : String
  tokenSymbol : String
  tokenName : String
  tokenDecimals : Nat
  fromAddress : String
  operatorAddress : String
  amount : String
  txHash : String
  blockNumber : Option Nat
  timestamp : Nat
  status : PullbackStatus
  errorMessage : Option String
  deriving DecidableEq, Repr

/-- One document of the `AuditLog` collection, restricted to the identifying
fields (`createAuditLog` in src/middleware/auditLog.ts; the free-form
`metadata` payload, ip and user agent are omitted). -/
structure AuditEntry where
  action : String
  walletAddress : String
  tokenId : Option String
  txHash : Option String
  deriving DecidableEq, Repr

/-- The persistent store: one list per collection the core touches. -/
structure Db where
  nfts : List NFTRecord
  approvals : List ApprovalRecord
  erc20Approvals : List ERC20ApprovalRecord
  erc20Pullbacks : List ERC20PullbackRecord
  audits : List AuditEntry
  deriving DecidableEq, Repr

/-! ## Blockchain gateway (src/services/blockchainService.ts) -/

/-- Result of the ERC-20 `name/symbol/decimals` reads. -/
structure TokenInfo where
  name : String
  symbol : String
  decimals : Nat
  deriving DecidableEq, Repr

/-- Transaction receipt, restricted to the field the controllers read. -/
structure Receipt where
  blockNumber : Nat
  deriving DecidableEq, Repr

/-- Pure model of the blockchain-service API at one instant: each field gives
the outcome the corresponding call would have, with `Except.error msg` for a
thrown error.  `getTransactionReceipt` returns `none` both for a missing
receipt and for an RPC failure, as the source catches the latter and returns
`null`.  `pullToken` and `pullBackERC20` are the transaction-submitting calls
(each one internally re-checks approval/allowance and then writes; the model
keeps the service-level outcome).  `checkERC20Status` yields the
`(balance, allowance)` pair as the decimal strings produced by
`result.balance.toString()` / `result.allowance.toString()`. -/
structure Chain where
  getTokenOwner : String → Except String String
  checkApproval : String → String → Except String Bool
  checkERC20Status : String → String → Except String (String × String)
  getERC20TokenInfo : String → Except String TokenInfo
  getTransactionReceipt : String → Option Receipt
  pullToken : String → String → Except String String
  pullBackERC20 : String → String → String → Except String String
  waitForTransaction : String → Except String Receipt
  getBlockTimestamp : Nat → Except String Nat

/-- One observable call to the blockchain gateway, recorded in order in each
controller's trace. -/
inductive GatewayCall
  | receiptLookup (txHash : String)
  | approvalRead (owner operator : String)
  | ownerRead (tokenId : String)
  | erc20StatusRead (tokenContract holder : String)
  | tokenInfoRead (tokenContract : String)
  | pullTokenWrite (fromAddress tokenId : String)
  | pullERC20Write (tokenContract fromAddress amount : String)
  | waitForTx (txHash : String)
  deriving DecidableEq, Repr

/-- Whether a gateway call submits a transaction (a chain write). -/
def GatewayCall.isWrite : GatewayCall → Bool
  | .pullTokenWrite _ _ => true
  | .pullERC20Write _ _ _ => true
  | _ => false

/-! ## Supported-token allow-list (src/controllers/approvalController.ts) -/

/-- Sepolia USDT address (`USDT_ADDRESS` constant in the source). -/
def USDT_ADDRESS : String := "0xbDeaD2A70Fe794D2f97b37EFDE497e68974a296d"

/-- Sepolia USDC address (`USDC_ADDRESS` constant in the source). -/
def USDC_ADDRESS : String := "0x94a9D9AC8a22534E3FaCa9F4e7F2E2cf85d5E4C8"

/-- The `TOKEN_INFO` allow-list map, keyed by lowercased contract address;
yields `(symbol, name)`. -/
def tokenInfoFor? (tokenContractLower : String) : Option (String × String) :=
  if tokenContractLower = jsLower USDT_ADDRESS then some ("USDT", "Tether USD")
  else if tokenContractLower = jsLower USDC_ADDRESS then some ("USDC", "USD Coin")
  else none

/-! ## pullToken controller (POST /api/pull/:tokenId, src/controllers/tokenController) -/

/-- Replaces the first record with the given `tokenId` (the document returned
by `findOne` and written back by `save()` / `findOneAndUpdate`). -/
def saveNFT : List NFTRecord → String → NFTRecord → List NFTRecord
  | [], _, _ => []
  | n :: ns, tid, doc => if n.tokenId = tid then doc :: ns else n :: saveNFT ns tid doc

/-- Response body of `pullToken`. -/
inductive PullTokenBody
  | ok (tokenId txHash fromAddress toAddress : String) (nft : NFTRecord)
  | err (message : String)
  deriving DecidableEq, Repr

/-- Full outcome of one `pullToken` request: HTTP status, body, resulting
database, and the ordered trace of blockchain-gateway calls made. -/
structure PullTokenResult where
  status : Nat
  body : PullTokenBody
  db : Db
  calls : List GatewayCall
  deriving DecidableEq, Repr

/-- The `pullToken` controller.  An empty `operatorAddress` models a missing
request field (JS falsiness of `undefined` and `""`).  The approval gate is a
live `isApprovedForAll(currentOwner, operatorAddress)` read; the stored
approval ledger (`db.approvals`) is never consulted. -/
def pullToken (db : Db) (chain : Chain) (tokenId operatorAddress : String) :
    PullTokenResult :=
  if operatorAddress = "" then
    { status := 400, body := .err "Missing operatorAddress", db := db, calls := [] }
  else
    match db.nfts.find? (fun n => n.tokenId = tokenId) with
    | none => { status := 404, body := .err "NFT not found", db := db, calls := [] }
    | some nft =>
      if nft.status ≠ .minted ∧ nft.status ≠ .redeemed then
        { status := 400, body := .err "NFT not yet minted or redeemed", db := db, calls := [] }
      else
        match chain.getTokenOwner tokenId with
        | .error e =>
          { status := 500, body := .err e, db := db, calls := [.ownerRead tokenId] }
        | .ok currentOwner =>
          match chain.checkApproval currentOwner operatorAddress with
          | .error e =>
            { status := 500, body := .err e, db := db
              calls := [.ownerRead tokenId, .approvalRead currentOwner operatorAddress] }
          | .ok isApproved =>
            if ¬ isApproved then
              { status := 403, body := .err "Operator not approved by token owner"
                db := db
                calls := [.ownerRead tokenId, .approvalRead currentOwner operatorAddress] }
            else
              match chain.pullToken currentOwner tokenId with
              | .error e =>
                { status := 500, body := .err e, db := db
                  calls := [.ownerRead tokenId,
                            .approvalRead currentOwner operatorAddress,
                            .pullTokenWrite currentOwner tokenId] }
              | .ok txHash =>
                let nft' := { nft with status := .pulled, pullTxHash := some txHash }
                let db' := { db with
                  nfts := saveNFT db.nfts tokenId nft'
                  audits := db.audits ++
                    [{ action := "token_pulled", walletAddress := jsLower operatorAddress
                       tokenId := some tokenId, txHash := some txHash }] }
                { status := 200
                  body := .ok tokenId txHash currentOwner operatorAddress nft'
                  db := db'
                  calls := [.ownerRead tokenId,
                            .approvalRead currentOwner operatorAddress,
                            .pullTokenWrite currentOwner tokenId] }

/-! ## pullBackERC20 controller (POST /api/erc20/pull, src/controllers/tokenController) -/

/-- Response body of `pullBackERC20`.  The two insufficient-amount errors carry
the `details: { required, current }` payload; other errors carry none. -/
inductive ERC20PullBody
  | ok (txHash : String) (tokenInfo : TokenInfo)
       (fromAddress operatorAddress amount : String)
       (blockNumber : Nat) (record : ERC20PullbackRecord)
  | err (message : String) (required current : Option String)
  deriving DecidableEq, Repr

/-- Full outcome of one `pullBackERC20` request. -/
structure ERC20PullResult where
  status : Nat
  body : ERC20PullBody
  db : Db
  calls : List GatewayCall
  deriving DecidableEq, Repr

/-- The catch block of `pullBackERC20`: if `tokenContract` and `fromAddress`
are present it looks the token info up again and records a best-effort
`failed` pullback row with an empty `txHash`; a failure of that lookup is
swallowed.  The original error is surfaced as a 500 either way. -/
def erc20PullFailure (db : Db) (chain : Chain) (now : Nat)
    (tokenContract fromAddress amount operatorAddress : String)
    (priorCalls : List GatewayCall) (msg : String) : ERC20PullResult :=
  if tokenContract ≠ "" ∧ fromAddress ≠ "" then
    match chain.getERC20TokenInfo tokenContract with
    | .ok info =>
      { status := 500, body := .err msg none none
        db := { db with erc20Pullbacks := db.erc20Pullbacks ++
          [{ tokenContract := jsLower tokenContract, tokenSymbol := info.symbol
             tokenName := info.name, tokenDecimals := info.decimals
             fromAddress := jsLower fromAddress
             operatorAddress := jsLower operatorAddress
             amount := if amount = "" then "0" else amount
             txHash := "", blockNumber := none, timestamp := now
             status := .failed, errorMessage := some msg }] }
        calls := priorCalls ++ [.tokenInfoRead tokenContract] }
    | .error _ =>
      { status := 500, body := .err msg none none, db := db
        calls := priorCalls ++ [.tokenInfoRead tokenContract] }
  else
    { status := 500, body := .err msg none none, db := db, calls := priorCalls }

/-- The `pullBackERC20` controller.  Live token info, then live balance and
allowance are fetched before anything else; the two amount preconditions are
checked with JavaScript `BigInt` (arbitrary-precision) comparisons on the
decimal strings, and fail as 400 responses before any transaction is
submitted.  Only when both hold is the chain-write `pullBackERC20` call made,
followed by confirmation waiting and a `completed` history row. -/
def pullBackERC20 (db : Db) (chain : Chain) (now : Nat)
    (tokenContract fromAddress amount operatorAddress : String) : ERC20PullResult :=
  if tokenContract = "" ∨ fromAddress = "" ∨ amount = "" ∨ operatorAddress = "" then
    { status := 400
      body := .err "Missing required fields: tokenContract, fromAddress, amount, operatorAddress" none none
      db := db, calls := [] }
  else
    match chain.getERC20TokenInfo tokenContract with
    | .error e =>
      erc20PullFailure db chain now tokenContract fromAddress amount operatorAddress
        [.tokenInfoRead tokenContract] e
    | .ok info =>
      let reads := [.tokenInfoRead tokenContract,
                    GatewayCall.erc20StatusRead tokenContract fromAddress]
      match chain.checkERC20Status tokenContract fromAddress with
      | .error e =>
        erc20PullFailure db chain now tokenContract fromAddress amount operatorAddress reads e
      | .ok (bal, alw) =>
        -- `BigInt(status.allowance) < BigInt(amount)`: a conversion failure throws
        match jsBigInt? alw with
        | none =>
          erc20PullFailure db chain now tokenContract fromAddress amount operatorAddress reads
            "Cannot convert allowance to a BigInt"
        | some alwV =>
          match jsBigInt? amount with
          | none =>
            erc20PullFailure db chain now tokenContract fromAddress amount operatorAddress reads
              "Cannot convert amount to a BigInt"
          | some amtV =>
            if alwV < amtV then
              { status := 400
                body := .err "Insufficient token allowance" (some amount) (some alw)
                db := db, calls := reads }
            else
              match jsBigInt? bal with
              | none =>
                erc20PullFailure db chain now tokenContract fromAddress amount operatorAddress reads
                  "Cannot convert balance to a BigInt"
              | some balV =>
                if balV < amtV then
                  { status := 400
                    body := .err "Insufficient token balance" (some amount) (some bal)
                    db := db, calls := reads }
                else
                  match chain.pullBackERC20 tokenContract fromAddress amount with
                  | .error e =>
                    erc20PullFailure db chain now tokenContract fromAddress amount operatorAddress
                      (reads ++ [.pullERC20Write tokenContract fromAddress amount]) e
                  | .ok txHash =>
                    match chain.waitForTransaction txHash with
                    | .error e =>
                      erc20PullFailure db chain now tokenContract fromAddress amount operatorAddress
                        (reads ++ [.pullERC20Write tokenContract fromAddress amount,
                                   .waitForTx txHash]) e
                    | .ok receipt =>
                      let rec0 : ERC20PullbackRecord :=
                        { tokenContract := jsLower tokenContract
                          tokenSymbol := info.symbol, tokenName := info.name
                          tokenDecimals := info.decimals
                          fromAddress := jsLower fromAddress
                          operatorAddress := jsLower operatorAddress
                          amount := amount, txHash := txHash
                          blockNumber := some receipt.blockNumber
                          timestamp := now, status := .completed, errorMessage := none }
                      { status := 200
                        body := .ok txHash info fromAddress operatorAddress amount
                          receipt.blockNumber rec0
                        db := { db with
                          erc20Pullbacks := db.erc20Pullbacks ++ [rec0]
                          audits := db.audits ++
                            [{ action := "erc20_pulled"
                               walletAddress := jsLower operatorAddress
                               tokenId := some fromAddress, txHash := some txHash }] }
                        calls := reads ++ [.pullERC20Write tokenContract fromAddress amount,
                                           .waitForTx txHash] }

/-! ## recordApproval controller (POST /api/record-approval) -/

/-- Message of the MongoDB duplicate-key rejection (error code E11000) raised
when `Approval.create` violates the unique `txHash` index; the controller's
catch-all surfaces `error.message` in a 500 response. -/
def duplicateKeyErrorMessage : String := "E11000 duplicate key error"

/-- Response body of `recordApproval`. -/
inductive RecordApprovalBody
  | ok (approval : ApprovalRecord)
  | err (message : String)
  deriving DecidableEq, Repr

/-- Full outcome of one `recordApproval` request. -/
structure RecordApprovalResult where
  status : Nat
  body : RecordApprovalBody
  db : Db
  calls : List GatewayCall
  deriving DecidableEq, Repr

/-- The `recordApproval` controller: verifies the transaction receipt exists,
re-derives `isApproved` from a live `isApprovedForAll` read (never trusting
the client), then inserts a new `Approval` row.  The unique `txHash` index
makes the insert throw on a replayed transaction hash, which the catch-all
turns into a 500 — the existing record is not looked up or returned. -/
def recordApproval (db : Db) (chain : Chain) (now : Nat)
    (walletAddress operatorAddress txHash : String) : RecordApprovalResult :=
  if walletAddress = "" ∨ operatorAddress = "" ∨ txHash = "" then
    { status := 400, body := .err "Missing required fields", db := db, calls := [] }
  else
    match chain.getTransactionReceipt txHash with
    | none =>
      { status := 400, body := .err "Transaction not found or not confirmed"
        db := db, calls := [.receiptLookup txHash] }
    | some receipt =>
      match chain.checkApproval walletAddress operatorAddress with
      | .error e =>
        { status := 500, body := .err e, db := db
          calls := [.receiptLookup txHash, .approvalRead walletAddress operatorAddress] }
      | .ok isApproved =>
        if db.approvals.any (fun a => a.txHash = txHash) then
          { status := 500, body := .err duplicateKeyErrorMessage, db := db
            calls := [.receiptLookup txHash, .approvalRead walletAddress operatorAddress] }
        else
          let approval : ApprovalRecord :=
            { walletAddress := jsLower walletAddress
              operatorAddress := jsLower operatorAddress
              isApproved := isApproved, txHash := txHash
              blockNumber := receipt.blockNumber, timestamp := now }
          { status := 200, body := .ok approval
            db := { db with
              approvals := db.approvals ++ [approval]
              audits := db.audits ++
                [{ action := "approval_recorded", walletAddress := jsLower walletAddress
                   tokenId := none, txHash := some txHash }] }
            calls := [.receiptLookup txHash, .approvalRead walletAddress operatorAddress] }

/-! ## recordERC20Approval controller (POST /api/approvals/erc20) -/

/-- Response body of `recordERC20Approval`; `alreadyRecorded` is `true` only
on the idempotent short-circuit (the field is absent, i.e. falsy, on a fresh
insert). -/
inductive RecordERC20Body
  | ok (approval : ERC20ApprovalRecord) (alreadyRecorded : Bool)
  | err (message : String)
  deriving DecidableEq, Repr

/-- Full outcome of one `recordERC20Approval` request. -/
structure RecordERC20Result where
  status : Nat
  body : RecordERC20Body
  db : Db
  calls : List GatewayCall
  deriving DecidableEq, Repr

/-- The `recordERC20Approval` controller: validates the allow-list, then checks
for an existing `(txHash, tokenContract)` row and returns it unchanged with
`alreadyRecorded: true` before any receipt lookup; otherwise verifies the
receipt and inserts a row with `isApproved: true` unconditionally — no live
allowance or approval read is performed on this path. -/
def recordERC20Approval (db : Db) (chain : Chain) (now : Nat)
    (walletAddress operatorAddress tokenContract txHash : String) : RecordERC20Result :=
  if walletAddress = "" ∨ operatorAddress = "" ∨ tokenContract = "" ∨ txHash = "" then
    { status := 400
      body := .err "Missing required fields: walletAddress, operatorAddress, tokenContract, txHash"
      db := db, calls := [] }
  else
    let tokenContractLower := jsLower tokenContract
    match tokenInfoFor? tokenContractLower with
    | none =>
      { status := 400, body := .err "Unsupported token contract", db := db, calls := [] }
    | some tokenInfo =>
      match db.erc20Approvals.find?
          (fun a => a.txHash = txHash ∧ a.tokenContract = tokenContractLower) with
      | some existing =>
        { status := 200, body := .ok existing true, db := db, calls := [] }
      | none =>
        match chain.getTransactionReceipt txHash with
        | none =>
          { status := 400, body := .err "Transaction not found or not confirmed"
            db := db, calls := [.receiptLookup txHash] }
        | some receipt =>
          let approval : ERC20ApprovalRecord :=
            { walletAddress := jsLower walletAddress
              operatorAddress := jsLower operatorAddress
              tokenContract := tokenContractLower
              tokenSymbol := tokenInfo.1, txHash := txHash
              blockNumber := some receipt.blockNumber
              isApproved := true, timestamp := now }
          { status := 200, body := .ok approval false
            db := { db with
              erc20Approvals := db.erc20Approvals ++ [approval]
              audits := db.audits ++
                [{ action := "erc20_approval_recorded"
                   walletAddress := jsLower walletAddress
                   tokenId := none, txHash := some txHash }] }
            calls := [.receiptLookup txHash] }

/-! ## getConnectedRecipients controller (GET /api/approvals/connected-recipients) -/

/-- Per-token approval block of a recipient summary. -/
structure TokenApprovalView where
  approved : Bool
  allowance : String
  txHash : Option String
  approvedAt : Option Nat
  deriving DecidableEq, Repr

/-- Entry of `nftsReceived` in a recipient summary. -/
structure RecipientNFTView where
  tokenId : String
  filename : String
  status : NFTStatus
  receivedAt : Nat
  deriving DecidableEq, Repr

/-- Entry of `pullbackHistory` in a recipient summary. -/
structure PullbackView where
  tokenSymbol : String
  amount : String
  txHash : String
  timestamp : Nat
  deriving DecidableEq, Repr

/-- One element of the connected-recipients response. -/
structure RecipientSummary where
  walletAddress : String
  nftApproved : Bool
  usdt : TokenApprovalView
  usdc : TokenApprovalView
  usdtBalance : String
  usdcBalance : String
  nftsReceived : List RecipientNFTView
  pullbackHistory : List PullbackView
  firstApprovalAt : Option Nat
  totalNFTs : Nat
  hasAnyApproval : Bool
  deriving DecidableEq, Repr

/-- The `try { checkERC20Status } catch { ... }` wrapper: a live
`(balance, allowance)` read whose failure yields the `("0", "0")` defaults
instead of aborting the summary. -/
def liveERC20Status (chain : Chain) (tokenContract recipientAddress : String) :
    String × String :=
  match chain.checkERC20Status tokenContract recipientAddress with
  | .ok p => p
  | .error _ => ("0", "0")

/-- The `try { checkApproval } catch { ... }` wrapper: the live
`isApprovedForAll(recipient, contractAddress)` read, defaulting to `false` on
failure. -/
def liveNFTApproval (chain : Chain) (contractAddress recipientAddress : String) : Bool :=
  match chain.checkApproval recipientAddress contractAddress with
  | .ok b => b
  | .error _ => false

/-- `Math.min(...timestamps)` over a non-empty list, `null` when empty. -/
def minTimestamp? : List Nat → Option Nat
  | [] => none
  | t :: ts => some (ts.foldl Nat.min t)

/-- The stored ERC-20 approvals fetched for the operator:
`ERC20Approval.find({ operatorAddress, isApproved: true })`. -/
def storedApprovalsFor (db : Db) (operatorAddress : String) : List ERC20ApprovalRecord :=
  db.erc20Approvals.filter (fun a => a.operatorAddress = operatorAddress ∧ a.isApproved)

/-- The NFTs issued by the operator: `NFT.find({ investorAddress })`. -/
def operatorNFTs (db : Db) (operatorAddress : String) : List NFTRecord :=
  db.nfts.filter (fun n => n.investorAddress = operatorAddress)

/-- The candidate recipient set: the union (first-occurrence deduplicated, as
`[...new Set(...)]`) of recipients of stored approvals and recipients of
NFTs issued by the operator. -/
def candidateRecipients (db : Db) (operatorAddress : String) : List String :=
  jsSetDedup
    (jsSetDedup ((storedApprovalsFor db operatorAddress).map (fun a => jsLower a.walletAddress)) ++
     jsSetDedup ((operatorNFTs db operatorAddress).map (fun n => jsLower n.recipientAddress)))

/-- The stored approvals of one recipient among the operator's stored rows
(`recipientApprovals` in the source). -/
def recipientStoredApprovals (storedApprovals : List ERC20ApprovalRecord)
    (recipientAddress : String) : List ERC20ApprovalRecord :=
  storedApprovals.filter (fun a => jsLower a.walletAddress = recipientAddress)

/-- The recipient's stored USDT approval row, if any. -/
def storedUsdtFor (storedApprovals : List ERC20ApprovalRecord)
    (recipientAddress : String) : Option ERC20ApprovalRecord :=
  (recipientStoredApprovals storedApprovals recipientAddress).find?
    (fun a => jsLower a.tokenContract = jsLower USDT_ADDRESS)

/-- The recipient's stored USDC approval row, if any. -/
def storedUsdcFor (storedApprovals : List ERC20ApprovalRecord)
    (recipientAddress : String) : Option ERC20ApprovalRecord :=
  (recipientStoredApprovals storedApprovals recipientAddress).find?
    (fun a => jsLower a.tokenContract = jsLower USDC_ADDRESS)

/-- The `nftsReceived` entries of one recipient. -/
def recipientNFTViews (nfts : List NFTRecord) (recipientAddress : String) :
    List RecipientNFTView :=
  (nfts.filter (fun n => jsLower n.recipientAddress = recipientAddress)).map
    (fun n => { tokenId := n.tokenId
                filename := n.originalFilename.getD "Unknown"
                status := n.status, receivedAt := n.createdAt })

/-- The completed-pullback history entries of one recipient. -/
def pullbackViews (pullbacks : List ERC20PullbackRecord)
    (operatorAddress recipientAddress : String) : List PullbackView :=
  (pullbacks.filter (fun p =>
      p.fromAddress = recipientAddress ∧ p.operatorAddress = operatorAddress ∧
      p.status = .completed)).map
    (fun p => { tokenSymbol := p.tokenSymbol, amount := p.amount
                txHash := p.txHash, timestamp := p.timestamp })

/-- The summary object literal of the source, parameterised by the three
boolean values whose JavaScript evaluation is branch-dependent
(`usdt.approved`, `usdc.approved`, `hasOnChainApproval`). -/
def mkRecipientSummary (chain : Chain) (contractAddress operatorAddress : String)
    (storedApprovals : List ERC20ApprovalRecord) (nfts : List NFTRecord)
    (pullbacks : List ERC20PullbackRecord) (recipientAddress : String)
    (usdtApproved usdcApproved hasOnChain : Bool) : RecipientSummary :=
  { walletAddress := recipientAddress
    nftApproved := liveNFTApproval chain contractAddress recipientAddress
    usdt := { approved := usdtApproved
              allowance := (liveERC20Status chain USDT_ADDRESS recipientAddress).2
              txHash := (storedUsdtFor storedApprovals recipientAddress).map (·.txHash)
              approvedAt := (storedUsdtFor storedApprovals recipientAddress).map (·.timestamp) }
    usdc := { approved := usdcApproved
              allowance := (liveERC20Status chain USDC_ADDRESS recipientAddress).2
              txHash := (storedUsdcFor storedApprovals recipientAddress).map (·.txHash)
              approvedAt := (storedUsdcFor storedApprovals recipientAddress).map (·.timestamp) }
    usdtBalance := (liveERC20Status chain USDT_ADDRESS recipientAddress).1
    usdcBalance := (liveERC20Status chain USDC_ADDRESS recipientAddress).1
    nftsReceived := recipientNFTViews nfts recipientAddress
    pullbackHistory := pullbackViews pullbacks operatorAddress recipientAddress
    firstApprovalAt := minTimestamp?
      ((recipientStoredApprovals storedApprovals recipientAddress).map (·.timestamp))
    totalNFTs := (recipientNFTViews nfts recipientAddress).length
    hasAnyApproval := ((storedUsdtFor storedApprovals recipientAddress).isSome ||
        (storedUsdcFor storedApprovals recipientAddress).isSome) || hasOnChain }

/-- Builds one recipient's summary.  The three live reads are individually
wrapped with zero/false defaults (`liveERC20Status`, `liveNFTApproval`).  The
`BigInt` conversions of the allowance strings reproduce the source's
JavaScript short-circuit order: the USDT allowance is always converted; the
USDC allowance is converted unless the USDT allowance is already positive and
a stored USDC approval exists (in which case both `hasOnChainApproval` and
`usdc.approved` short-circuit before reaching it).  A conversion failure
throws out of the summary, rejecting the surrounding `Promise.all`. -/
def buildRecipientSummary (chain : Chain) (contractAddress operatorAddress : String)
    (storedApprovals : List ERC20ApprovalRecord) (nfts : List NFTRecord)
    (pullbacks : List ERC20PullbackRecord) (recipientAddress : String) :
    Except String RecipientSummary :=
  match jsBigInt? (liveERC20Status chain USDT_ADDRESS recipientAddress).2 with
  | none => .error "Cannot convert allowance to a BigInt"
  | some usdtAllowanceV =>
    if 0 < usdtAllowanceV ∧ (storedUsdcFor storedApprovals recipientAddress).isSome then
      .ok (mkRecipientSummary chain contractAddress operatorAddress storedApprovals
        nfts pullbacks recipientAddress
        ((storedUsdtFor storedApprovals recipientAddress).isSome ||
          decide (0 < usdtAllowanceV))
        true true)
    else
      match jsBigInt? (liveERC20Status chain USDC_ADDRESS recipientAddress).2 with
      | none => .error "Cannot convert allowance to a BigInt"
      | some usdcAllowanceV =>
        .ok (mkRecipientSummary chain contractAddress operatorAddress storedApprovals
          nfts pullbacks recipientAddress
          ((storedUsdtFor storedApprovals recipientAddress).isSome ||
            decide (0 < usdtAllowanceV))
          ((storedUsdcFor storedApprovals recipientAddress).isSome ||
            decide (0 < usdcAllowanceV))
          (decide (0 < usdtAllowanceV) || decide (0 < usdcAllowanceV) ||
            liveNFTApproval chain contractAddress recipientAddress))

/-- Sort key of the final list: first-approval timestamp descending, entries
without a timestamp last (the source comparator returns 0, 1, -1 or `b - a`;
this relation is `compare(a, b) <= 0`). -/
def tsLe : Option Nat → Option Nat → Bool
  | some a, some b => b ≤ a
  | some _, none => true
  | none, some _ => false
  | none, none => true

/-- Order relation on summaries induced by the sort comparator. -/
def summaryLE (a b : RecipientSummary) : Prop :=
  tsLe a.firstApprovalAt b.firstApprovalAt = true

instance : DecidableRel summaryLE := fun _ _ =>
  inferInstanceAs (Decidable (_ = true))

/-- Final response of `getConnectedRecipients`. -/
structure ConnectedRecipientsResult where
  status : Nat
  recipients : List RecipientSummary
  totalRecipients : Nat
  errorMessage : Option String
  deriving DecidableEq, Repr

/-- The `getConnectedRecipients` controller: gathers stored approvals and NFTs
for the operator, builds a summary per candidate recipient (all live reads
individually fault-tolerant), keeps only recipients with `hasAnyApproval`,
and sorts by first-approval timestamp descending with timestamp-less entries
last.  JavaScript `Array#sort` is stable, so any stable sort by the same
total preorder produces the same list; `List.insertionSort` is that stable
sort. -/
def getConnectedRecipients (db : Db) (chain : Chain)
    (contractAddress : Option String) (operator : String) : ConnectedRecipientsResult :=
  if operator = "" then
    { status := 400, recipients := [], totalRecipients := 0
      errorMessage := some "Missing operator address" }
  else
    match contractAddress with
    | none =>
      { status := 500, recipients := [], totalRecipients := 0
        errorMessage := some "Contract address not configured" }
    | some contractAddr =>
      let operatorAddress := jsLower operator
      let stored := storedApprovalsFor db operatorAddress
      let nfts := operatorNFTs db operatorAddress
      let uniqueRecipients := candidateRecipients db operatorAddress
      match mapExcept
          (buildRecipientSummary chain contractAddr operatorAddress stored nfts
            db.erc20Pullbacks)
          uniqueRecipients with
      | .error e =>
        { status := 500, recipients := [], totalRecipients := 0, errorMessage := some e }
      | .ok summaries =>
        { status := 200
          recipients := List.insertionSort summaryLE
            (summaries.filter (·.hasAnyApproval))
          totalRecipients := uniqueRecipients.length
          errorMessage := none }

/-! ## Event ingestion loop (src/services/litProtocolService.ts) -/

/-- `findOneAndUpdate({ tokenId }, update)`: applies the update to the first
record with the given `tokenId`, leaving the rest untouched; a no-op when no
record matches. -/
def findOneAndUpdateNFT : List NFTRecord → String → (NFTRecord → NFTRecord) → List NFTRecord
  | [], _, _ => []
  | n :: ns, tid, f =>
    if n.tokenId = tid then f n :: ns else n :: findOneAndUpdateNFT ns tid f

/-- `Approval.findOneAndUpdate({walletAddress, operatorAddress}, doc, {upsert})`:
the update document sets every schema field, so the first row with the same
`(walletAddress, operatorAddress)` pair is replaced wholesale; if none
matches, the document is inserted. -/
def upsertApprovalByPair : List ApprovalRecord → ApprovalRecord → List ApprovalRecord
  | [], doc => [doc]
  | a :: as, doc =>
    if a.walletAddress = doc.walletAddress ∧ a.operatorAddress = doc.operatorAddress then
      doc :: as
    else
      a :: upsertApprovalByPair as doc

/-- The in-memory document as `handleTransferEvent` leaves it: the fetched NFT
with its status set to `redeemed` when the transfer target matches the stored
recipient (case-insensitively) and the current status is `minted`. -/
def transferEventDoc (db : Db) (toAddress tokenId : String) : Option NFTRecord :=
  (db.nfts.find? (fun n => n.tokenId = tokenId)).map (fun nft =>
    if jsLower toAddress = jsLower nft.recipientAddress ∧ nft.status = .minted then
      { nft with status := .redeemed }
    else nft)

/-- `handleTransferEvent`: fetches the NFT and, when the transfer goes to the
stored recipient of a `minted` token, sets `nft.status = 'redeemed'` on the
in-memory document — but the source never calls `nft.save()`, so the
persisted database is returned unchanged. -/
def handleTransferEvent (db : Db) (fromAddress toAddress tokenId : String) : Db :=
  match db.nfts.find? (fun n => n.tokenId = tokenId) with
  | none => db
  | some nft =>
    let _doc :=
      if jsLower toAddress = jsLower nft.recipientAddress ∧ nft.status = .minted then
        { nft with status := NFTStatus.redeemed }
      else nft
    db

/-- `handleApprovalForAllEvent`: reads the block timestamp (a failure is
caught, leaving the database unchanged) and upserts the approval mirror row
keyed by `(grantor, operator)`.  NFT records are never touched. -/
def handleApprovalForAllEvent (chain : Chain) (db : Db)
    (owner operator : String) (approved : Bool) (txHash : String)
    (blockNumber : Nat) : Db :=
  match chain.getBlockTimestamp blockNumber with
  | .error _ => db
  | .ok blockTime =>
    let doc : ApprovalRecord :=
      { walletAddress := jsLower owner, operatorAddress := jsLower operator
        isApproved := approved, txHash := txHash
        blockNumber := blockNumber, timestamp := blockTime }
    { db with approvals := upsertApprovalByPair db.approvals doc }

/-- `handleTokenPulledBackEvent`: marks the matching NFT `pulled` and records
the pull transaction hash. -/
def handleTokenPulledBackEvent (db : Db) (fromAddress operator tokenId txHash : String) : Db :=
  let nfts' := findOneAndUpdateNFT db.nfts tokenId
    (fun n => { n with status := .pulled, pullTxHash := some txHash })
  { db with nfts := nfts' }

/-- `handleTokenMintedEvent`: sets the matching NFT's status to `minted` and
records the mint transaction hash — unconditionally, whatever the current
status is. -/
def handleTokenMintedEvent (db : Db) (toAddress tokenId tokenURI txHash : String) : Db :=
  let nfts' := findOneAndUpdateNFT db.nfts tokenId
    (fun n => { n with status := .minted, mintTxHash := some txHash })
  { db with nfts := nfts' }

/-- One delivered on-chain event of the four monitored kinds, with the
event-log metadata the handlers read. -/
inductive ChainEvent
  | transfer (fromAddress toAddress tokenId : String)
  | approvalForAll (owner operator : String) (approved : Bool)
      (txHash : String) (blockNumber : Nat)
  | tokenPulledBack (fromAddress operator tokenId txHash : String)
  | tokenMinted (toAddress tokenId tokenURI txHash : String)
  deriving DecidableEq, Repr

/-- Whether the event is a `TokenMinted` event. -/
def ChainEvent.isTokenMinted : ChainEvent → Bool
  | .tokenMinted _ _ _ _ => true
  | _ => false

/-- Dispatch of the event-ingestion loop to the four handlers. -/
def handleEvent (chain : Chain) (db : Db) : ChainEvent → Db
  | .transfer fromAddress toAddress tokenId =>
    handleTransferEvent db fromAddress toAddress tokenId
  | .approvalForAll owner operator approved txHash blockNumber =>
    handleApprovalForAllEvent chain db owner operator approved txHash blockNumber
  | .tokenPulledBack fromAddress operator tokenId txHash =>
    handleTokenPulledBackEvent db fromAddress operator tokenId txHash
  | .tokenMinted toAddress tokenId tokenURI txHash =>
    handleTokenMintedEvent db toAddress tokenId tokenURI txHash

/-- Processing of a sequence of delivered events, in order. -/
def runEvents (chain : Chain) (db : Db) : List ChainEvent → Db
  | [] => db
  | e :: es => runEvents chain (handleEvent chain db e) es

/-! ## Fixtures used by the concrete witnesses -/

/-- A gateway where every call fails: witnesses override the calls a scenario
needs, so any path not covered by the statement would be visibly wrong. -/
def noChain : Chain :=
  { getTokenOwner := fun _ => .error "down"
    checkApproval := fun _ _ => .error "down"
    checkERC20Status := fun _ _ => .error "down"
    getERC20TokenInfo := fun _ => .error "down"
    getTransactionReceipt := fun _ => none
    pullToken := fun _ _ => .error "down"
    pullBackERC20 := fun _ _ _ => .error "down"
    waitForTransaction := fun _ => .error "down"
    getBlockTimestamp := fun _ => .error "down" }

/-- A minted NFT issued by `0xbbb` to `0xaaa`. -/
def sampleNFT : NFTRecord :=
  { tokenId := "123", recipientAddress := "0xaaa", investorAddress := "0xbbb"
    tokenURI := "uri", status := .minted, mintTxHash := some "0xm"
    pullTxHash := none, originalFilename := some "doc.pdf", createdAt := 1 }

/-- A ledger row claiming `0xaaa` approved operator `0xBBB` (stale mirror). -/
def staleApprovalRow : ApprovalRecord :=
  { walletAddress := "0xaaa", operatorAddress := "0xbbb", isApproved := true
    txHash := "0x111", blockNumber := 4, timestamp := 9 }

/-! ## C1 -/

/-- C1: when `pullToken` finds the NFT in status `minted`, authorization is
re-derived from the live `isApprovedForAll(currentOwner, operator)` read made
during the call; if that read returns `false` the request fails 403 with the
`NotApproved` message, the whole database (NFT statuses, pullback history,
approval ledger) is returned unchanged, and the gateway-call trace contains
the two live reads and no chain write — for every stored approval-ledger
content, which the controller never consults. -/
theorem pullToken_live_check_beats_ledger
    (db : Db) (chain : Chain) (tokenId operatorAddress owner : String)
    (nft : NFTRecord)
    (hop : ¬ operatorAddress = "")
    (hfind : db.nfts.find? (fun n => n.tokenId = tokenId) = some nft)
    (hstatus : nft.status = .minted)
    (howner : chain.getTokenOwner tokenId = .ok owner)
    (happr : chain.checkApproval owner operatorAddress = .ok false) :
    pullToken db chain tokenId operatorAddress =
      { status := 403
        body := .err "Operator not approved by token owner"
        db := db
        calls := [.ownerRead tokenId, .approvalRead owner operatorAddress] } ∧
    (pullToken db chain tokenId operatorAddress).calls.filter GatewayCall.isWrite = [] ∧
    (pullToken db chain tokenId operatorAddress).db.erc20Pullbacks = db.erc20Pullbacks ∧
    (pullToken db chain tokenId operatorAddress).db.nfts = db.nfts := by
  have hres : pullToken db chain tokenId operatorAddress =
      { status := 403
        body := .err "Operator not approved by token owner"
        db := db
        calls := [.ownerRead tokenId, .approvalRead owner operatorAddress] } := by
    simp only [pullToken, hfind, hstatus, howner, happr, if_neg hop]
    simp
  exact ⟨hres, by rw [hres]; rfl, by rw [hres], by rw [hres]⟩

/-- Witness for C1: the scenario of the spec — token `123` minted, live owner
`0xAAA`, live approval read `false`, while the stored ledger still marks the
owner approved. -/
theorem pullToken_live_check_beats_ledger_witness :
    (¬ "0xBBB" = "") ∧
    ((Db.mk [sampleNFT] [staleApprovalRow] [] [] []).nfts.find?
      (fun n => n.tokenId = "123") = some sampleNFT) ∧
    sampleNFT.status = .minted ∧
    pullToken (Db.mk [sampleNFT] [staleApprovalRow] [] [] [])
      { noChain with getTokenOwner := fun _ => .ok "0xAAA"
                     checkApproval := fun _ _ => .ok false } "123" "0xBBB" =
      { status := 403
        body := .err "Operator not approved by token owner"
        db := Db.mk [sampleNFT] [staleApprovalRow] [] [] []
        calls := [.ownerRead "123", .approvalRead "0xAAA" "0xBBB"] } :=
  ⟨by decide, by decide, by decide,
    (pullToken_live_check_beats_ledger
      (Db.mk [sampleNFT] [staleApprovalRow] [] [] [])
      { noChain with getTokenOwner := fun _ => .ok "0xAAA"
                     checkApproval := fun _ _ => .ok false }
      "123" "0xBBB" "0xAAA" sampleNFT
      (by decide) (by decide) (by decide) rfl rfl).1⟩

/-! ## C2 / C7 : pullBackERC20 preconditions -/

/-- Whatever the original error, the catch block of `pullBackERC20` responds
with a detail-less error body carrying the original message. -/
theorem erc20PullFailure_body (db : Db) (chain : Chain) (now : Nat)
    (tokenContract fromAddress amount operatorAddress : String)
    (priorCalls : List GatewayCall) (msg : String) :
    (erc20PullFailure db chain now tokenContract fromAddress amount operatorAddress
      priorCalls msg).body = .err msg none none := by
  unfold erc20PullFailure
  split
  · split <;> rfl
  · rfl

/-- Reduction of `pullBackERC20` on the insufficient-allowance branch. -/
theorem pullBackERC20_allowance_case
    (db : Db) (chain : Chain) (now : Nat)
    (tokenContract fromAddress amount operatorAddress : String)
    (info : TokenInfo) (bal alw : String) (a m : Int)
    (h1 : ¬ tokenContract = "") (h2 : ¬ fromAddress = "")
    (h3 : ¬ amount = "") (h4 : ¬ operatorAddress = "")
    (hinfo : chain.getERC20TokenInfo tokenContract = .ok info)
    (hstatus : chain.checkERC20Status tokenContract fromAddress = .ok (bal, alw))
    (halw : jsBigInt? alw = some a) (hamt : jsBigInt? amount = some m)
    (hlt : a < m) :
    pullBackERC20 db chain now tokenContract fromAddress amount operatorAddress =
      { status := 400
        body := .err "Insufficient token allowance" (some amount) (some alw)
        db := db
        calls := [.tokenInfoRead tokenContract,
                  .erc20StatusRead tokenContract fromAddress] } := by
  simp only [pullBackERC20, hinfo, hstatus, halw, hamt]
  rw [if_neg (by simp [h1, h2, h3, h4])]
  simp only [if_pos hlt]

/-- Reduction of `pullBackERC20` on the insufficient-balance branch. -/
theorem pullBackERC20_balance_case
    (db : Db) (chain : Chain) (now : Nat)
    (tokenContract fromAddress amount operatorAddress : String)
    (info : TokenInfo) (bal alw : String) (a m b : Int)
    (h1 : ¬ tokenContract = "") (h2 : ¬ fromAddress = "")
    (h3 : ¬ amount = "") (h4 : ¬ operatorAddress = "")
    (hinfo : chain.getERC20TokenInfo tokenContract = .ok info)
    (hstatus : chain.checkERC20Status tokenContract fromAddress = .ok (bal, alw))
    (halw : jsBigInt? alw = some a) (hamt : jsBigInt? amount = some m)
    (hge : ¬ a < m) (hbal : jsBigInt? bal = some b) (hblt : b < m) :
    pullBackERC20 db chain now tokenContract fromAddress amount operatorAddress =
      { status := 400
        body := .err "Insufficient token balance" (some amount) (some bal)
        db := db
        calls := [.tokenInfoRead tokenContract,
                  .erc20StatusRead tokenContract fromAddress] } := by
  simp only [pullBackERC20, hinfo, hstatus, halw, hamt, hbal]
  rw [if_neg (by simp [h1, h2, h3, h4])]
  rw [if_neg hge]
  simp only [if_pos hblt]

/-- When the live allowance suffices, `pullBackERC20` never produces the
insufficient-allowance response. -/
theorem pullBackERC20_no_allowance_error
    (db : Db) (chain : Chain) (now : Nat)
    (tokenContract fromAddress amount operatorAddress : String)
    (info : TokenInfo) (bal alw : String) (a m : Int)
    (h1 : ¬ tokenContract = "") (h2 : ¬ fromAddress = "")
    (h3 : ¬ amount = "") (h4 : ¬ operatorAddress = "")
    (hinfo : chain.getERC20TokenInfo tokenContract = .ok info)
    (hstatus : chain.checkERC20Status tokenContract fromAddress = .ok (bal, alw))
    (halw : jsBigInt? alw = some a) (hamt : jsBigInt? amount = some m)
    (hge : ¬ a < m) :
    (pullBackERC20 db chain now tokenContract fromAddress amount
      operatorAddress).body ≠
      .err "Insufficient token allowance" (some amount) (some alw) := by
  simp only [pullBackERC20, hinfo, hstatus, halw, hamt]
  rw [if_neg (by simp [h1, h2, h3, h4])]
  rw [if_neg hge]
  split
  · simp [erc20PullFailure_body]
  · split
    · simp
    · split
      · simp [erc20PullFailure_body]
      · split
        · simp [erc20PullFailure_body]
        · simp

/-- C2: with all four request fields present, `pullBackERC20` fetches the live
token info and `(balance, allowance)` pair before anything else; if the
allowance is below the requested amount it fails 400 with the
insufficient-allowance message, otherwise if the balance is below the amount
it fails 400 with the insufficient-balance message — and in either failure
case the gateway-call trace consists of the two reads only, with zero
chain-write invocations and the database unchanged. -/
theorem pullBackERC20_precondition_ordering
    (db : Db) (chain : Chain) (now : Nat)
    (tokenContract fromAddress amount operatorAddress : String)
    (info : TokenInfo) (bal alw : String) (a m : Int)
    (h1 : ¬ tokenContract = "") (h2 : ¬ fromAddress = "")
    (h3 : ¬ amount = "") (h4 : ¬ operatorAddress = "")
    (hinfo : chain.getERC20TokenInfo tokenContract = .ok info)
    (hstatus : chain.checkERC20Status tokenContract fromAddress = .ok (bal, alw))
    (halw : jsBigInt? alw = some a) (hamt : jsBigInt? amount = some m) :
    (a < m →
      pullBackERC20 db chain now tokenContract fromAddress amount operatorAddress =
        { status := 400
          body := .err "Insufficient token allowance" (some amount) (some alw)
          db := db
          calls := [.tokenInfoRead tokenContract,
                    .erc20StatusRead tokenContract fromAddress] } ∧
      (pullBackERC20 db chain now tokenContract fromAddress amount
        operatorAddress).calls.filter GatewayCall.isWrite = []) ∧
    (¬ a < m → ∀ b : Int, jsBigInt? bal = some b → b < m →
      pullBackERC20 db chain now tokenContract fromAddress amount operatorAddress =
        { status := 400
          body := .err "Insufficient token balance" (some amount) (some bal)
          db := db
          calls := [.tokenInfoRead tokenContract,
                    .erc20StatusRead tokenContract fromAddress] } ∧
      (pullBackERC20 db chain now tokenContract fromAddress amount
        operatorAddress).calls.filter GatewayCall.isWrite = []) := by
  constructor
  · intro hlt
    have hres := pullBackERC20_allowance_case db chain now tokenContract fromAddress
      amount operatorAddress info bal alw a m h1 h2 h3 h4 hinfo hstatus halw hamt hlt
    exact ⟨hres, by rw [hres]; rfl⟩
  · intro hge b hb hblt
    have hres := pullBackERC20_balance_case db chain now tokenContract fromAddress
      amount operatorAddress info bal alw a m b h1 h2 h3 h4 hinfo hstatus halw hamt
      hge hb hblt
    exact ⟨hres, by rw [hres]; rfl⟩

/-- Witness for C2: allowance 5, balance 9, requested amount 7 — the call
fails with the insufficient-allowance response and makes no chain write. -/
theorem pullBackERC20_precondition_ordering_witness :
    (jsBigInt? "5" = some 5) ∧ (jsBigInt? "7" = some 7) ∧ ((5 : Int) < 7) ∧
    pullBackERC20 (Db.mk [] [] [] [] [])
        { noChain with
          getERC20TokenInfo := fun _ => .ok (TokenInfo.mk "Tether USD" "USDT" 6)
          checkERC20Status := fun _ _ => .ok ("9", "5") } 3
        USDT_ADDRESS "0xaaa" "7" "0xop" =
      { status := 400
        body := .err "Insufficient token allowance" (some "7") (some "5")
        db := Db.mk [] [] [] [] []
        calls := [.tokenInfoRead USDT_ADDRESS,
                  .erc20StatusRead USDT_ADDRESS "0xaaa"] } :=
  ⟨by decide, by decide, by decide,
    ((pullBackERC20_precondition_ordering (Db.mk [] [] [] [] [])
        { noChain with
          getERC20TokenInfo := fun _ => .ok (TokenInfo.mk "Tether USD" "USDT" 6)
          checkERC20Status := fun _ _ => .ok ("9", "5") } 3
        USDT_ADDRESS "0xaaa" "7" "0xop"
        (TokenInfo.mk "Tether USD" "USDT" 6) "9" "5" 5 7
        (by decide) (by decide) (by decide) (by decide) rfl rfl
        (by decide) (by decide)).1 (by decide)).1⟩

/-- C7: the amount comparison of `pullBackERC20` is the arbitrary-precision
`BigInt` comparison of the decimal strings: under live reads yielding
allowance string `alw` of integer value `a` and an amount string of value
`m`, the call reports insufficient allowance exactly when `a < m` — for every
pair of decimal-string integers, with no floating-point truncation.  The
witness instantiates the spec's pair: amount 2^64 = 18446744073709551616
against allowance 2^64 - 1 = 18446744073709551615. -/
theorem pullBackERC20_arbitrary_precision
    (db : Db) (chain : Chain) (now : Nat)
    (tokenContract fromAddress amount operatorAddress : String)
    (info : TokenInfo) (bal alw : String) (a m : Int)
    (h1 : ¬ tokenContract = "") (h2 : ¬ fromAddress = "")
    (h3 : ¬ amount = "") (h4 : ¬ operatorAddress = "")
    (hinfo : chain.getERC20TokenInfo tokenContract = .ok info)
    (hstatus : chain.checkERC20Status tokenContract fromAddress = .ok (bal, alw))
    (halw : jsBigInt? alw = some a) (hamt : jsBigInt? amount = some m) :
    ((pullBackERC20 db chain now tokenContract fromAddress amount
        operatorAddress).body =
      .err "Insufficient token allowance" (some amount) (some alw)) ↔ a < m := by
  constructor
  · intro hbody
    by_contra hge
    exact pullBackERC20_no_allowance_error db chain now tokenContract fromAddress
      amount operatorAddress info bal alw a m h1 h2 h3 h4 hinfo hstatus halw hamt
      hge hbody
  · intro hlt
    rw [pullBackERC20_allowance_case db chain now tokenContract fromAddress
      amount operatorAddress info bal alw a m h1 h2 h3 h4 hinfo hstatus halw hamt hlt]

/-- Witness for C7: the spec's boundary pair — amount `"18446744073709551616"`
(2^64) against allowance `"18446744073709551615"` (2^64 - 1) is reported as
insufficient allowance. -/
theorem pullBackERC20_arbitrary_precision_witness :
    (jsBigInt? "18446744073709551615" = some 18446744073709551615) ∧
    (jsBigInt? "18446744073709551616" = some 18446744073709551616) ∧
    ((pullBackERC20 (Db.mk [] [] [] [] [])
        { noChain with
          getERC20TokenInfo := fun _ => .ok (TokenInfo.mk "Tether USD" "USDT" 6)
          checkERC20Status := fun _ _ => .ok ("0", "18446744073709551615") } 3
        USDT_ADDRESS "0xaaa" "18446744073709551616" "0xop").body =
      .err "Insufficient token allowance" (some "18446744073709551616")
        (some "18446744073709551615")) :=
  ⟨by decide, by decide,
    (pullBackERC20_arbitrary_precision (Db.mk [] [] [] [] [])
        { noChain with
          getERC20TokenInfo := fun _ => .ok (TokenInfo.mk "Tether USD" "USDT" 6)
          checkERC20Status := fun _ _ => .ok ("0", "18446744073709551615") } 3
        USDT_ADDRESS "0xaaa" "18446744073709551616" "0xop"
        (TokenInfo.mk "Tether USD" "USDT" 6) "0" "18446744073709551615"
        18446744073709551615 18446744073709551616
        (by decide) (by decide) (by decide) (by decide) rfl rfl
        (by decide) (by decide)).mpr (by decide)⟩

/-! ## C5 / C10 : recordERC20Approval -/

/-- `find?` over a list extended on the right finds the new element when the
original list had no match and the new element matches. -/
theorem find?_append_singleton {α} (p : α → Bool) (l : List α) (x : α)
    (h : l.find? p = none) (hx : p x = true) : (l ++ [x]).find? p = some x := by
  induction l with
  | nil => simp [List.find?_cons, hx]
  | cons a as ih =>
    rw [List.cons_append, List.find?_cons] at *
    cases hpa : p a with
    | true => simp [hpa] at h
    | false =>
      simp only [hpa] at h ⊢
      exact ih h

/-- Reduction of `recordERC20Approval` on the fresh-insert path: supported
token, no existing `(txHash, tokenContract)` row, receipt found. -/
theorem recordERC20Approval_fresh
    (db : Db) (chain : Chain) (now : Nat)
    (walletAddress operatorAddress tokenContract txHash : String)
    (symbolName : String × String) (receipt : Receipt)
    (h1 : ¬ walletAddress = "") (h2 : ¬ operatorAddress = "")
    (h3 : ¬ tokenContract = "") (h4 : ¬ txHash = "")
    (hsupp : tokenInfoFor? (jsLower tokenContract) = some symbolName)
    (hnew : db.erc20Approvals.find?
      (fun a => a.txHash = txHash ∧ a.tokenContract = jsLower tokenContract) = none)
    (hreceipt : chain.getTransactionReceipt txHash = some receipt) :
    recordERC20Approval db chain now walletAddress operatorAddress tokenContract txHash =
      { status := 200
        body := .ok
          { walletAddress := jsLower walletAddress
            operatorAddress := jsLower operatorAddress
            tokenContract := jsLower tokenContract
            tokenSymbol := symbolName.1, txHash := txHash
            blockNumber := some receipt.blockNumber
            isApproved := true, timestamp := now } false
        db := { db with
          erc20Approvals := db.erc20Approvals ++
            [{ walletAddress := jsLower walletAddress
               operatorAddress := jsLower operatorAddress
               tokenContract := jsLower tokenContract
               tokenSymbol := symbolName.1, txHash := txHash
               blockNumber := some receipt.blockNumber
               isApproved := true, timestamp := now }]
          audits := db.audits ++
            [{ action := "erc20_approval_recorded"
               walletAddress := jsLower walletAddress
               tokenId := none, txHash := some txHash }] }
        calls := [.receiptLookup txHash] } := by
  simp only [recordERC20Approval, hsupp, hnew, hreceipt]
  rw [if_neg (by simp [h1, h2, h3, h4])]

/-- C5: a fresh `recordERC20Approval` (supported token, no existing
`(txHash, tokenContract)` row, receipt found) stores exactly one new row; a
second call with the same `(txHash, tokenContract)` pair finds that row,
returns the very same stored record with `alreadyRecorded = true`, leaves the
database unchanged (no duplicate row), and makes no gateway call at all — in
particular no receipt lookup: the existing-row check short-circuits first. -/
theorem recordERC20Approval_idempotent
    (db : Db) (chain : Chain) (now now2 : Nat)
    (walletAddress operatorAddress walletAddress2 operatorAddress2
      tokenContract txHash : String)
    (symbolName : String × String) (receipt : Receipt)
    (h1 : ¬ walletAddress = "") (h2 : ¬ operatorAddress = "")
    (h3 : ¬ tokenContract = "") (h4 : ¬ txHash = "")
    (h5 : ¬ walletAddress2 = "") (h6 : ¬ operatorAddress2 = "")
    (hsupp : tokenInfoFor? (jsLower tokenContract) = some symbolName)
    (hnew : db.erc20Approvals.find?
      (fun a => a.txHash = txHash ∧ a.tokenContract = jsLower tokenContract) = none)
    (hreceipt : chain.getTransactionReceipt txHash = some receipt) :
    ∃ created : ERC20ApprovalRecord,
      (recordERC20Approval db chain now walletAddress operatorAddress tokenContract
        txHash).status = 200 ∧
      (recordERC20Approval db chain now walletAddress operatorAddress tokenContract
        txHash).body = .ok created false ∧
      (recordERC20Approval db chain now walletAddress operatorAddress tokenContract
        txHash).db.erc20Approvals = db.erc20Approvals ++ [created] ∧
      (recordERC20Approval
        (recordERC20Approval db chain now walletAddress operatorAddress tokenContract
          txHash).db
        chain now2 walletAddress2 operatorAddress2 tokenContract txHash).status = 200 ∧
      (recordERC20Approval
        (recordERC20Approval db chain now walletAddress operatorAddress tokenContract
          txHash).db
        chain now2 walletAddress2 operatorAddress2 tokenContract txHash).body =
        .ok created true ∧
      (recordERC20Approval
        (recordERC20Approval db chain now walletAddress operatorAddress tokenContract
          txHash).db
        chain now2 walletAddress2 operatorAddress2 tokenContract txHash).db =
        (recordERC20Approval db chain now walletAddress operatorAddress tokenContract
          txHash).db ∧
      (recordERC20Approval
        (recordERC20Approval db chain now walletAddress operatorAddress tokenContract
          txHash).db
        chain now2 walletAddress2 operatorAddress2 tokenContract txHash).calls = [] := by
  have hfirst := recordERC20Approval_fresh db chain now walletAddress operatorAddress
    tokenContract txHash symbolName receipt h1 h2 h3 h4 hsupp hnew hreceipt
  have hfind2 : ((db.erc20Approvals ++
      [{ walletAddress := jsLower walletAddress
         operatorAddress := jsLower operatorAddress
         tokenContract := jsLower tokenContract
         tokenSymbol := symbolName.1, txHash := txHash
         blockNumber := some receipt.blockNumber
         isApproved := true, timestamp := now : ERC20ApprovalRecord }]).find?
      (fun a => a.txHash = txHash ∧ a.tokenContract = jsLower tokenContract)) =
      some { walletAddress := jsLower walletAddress
             operatorAddress := jsLower operatorAddress
             tokenContract := jsLower tokenContract
             tokenSymbol := symbolName.1, txHash := txHash
             blockNumber := some receipt.blockNumber
             isApproved := true, timestamp := now } :=
    find?_append_singleton _ _ _ hnew (by simp)
  refine ⟨{ walletAddress := jsLower walletAddress
            operatorAddress := jsLower operatorAddress
            tokenContract := jsLower tokenContract
            tokenSymbol := symbolName.1, txHash := txHash
            blockNumber := some receipt.blockNumber
            isApproved := true, timestamp := now }, ?_, ?_, ?_, ?_, ?_, ?_, ?_⟩ <;>
    rw [hfirst] <;>
    try rfl
  all_goals {
    simp only [recordERC20Approval, hsupp, hfind2]
    rw [if_neg (by simp [h5, h6, h3, h4])]
  }

/-- Witness for C5: recording tx `0x111` for USDT twice — the first call
stores one row, the replay returns the same row with `alreadyRecorded = true`,
adds nothing, and makes no gateway call. -/
theorem recordERC20Approval_idempotent_witness :
    (tokenInfoFor? (jsLower USDT_ADDRESS) = some ("USDT", "Tether USD")) ∧
    ((Db.mk [] [] [] [] []).erc20Approvals.find?
      (fun a => a.txHash = "0x111" ∧ a.tokenContract = jsLower USDT_ADDRESS) = none) ∧
    ({ noChain with getTransactionReceipt := fun _ => some (Receipt.mk 12)
        : Chain }.getTransactionReceipt "0x111" = some (Receipt.mk 12)) ∧
    (∃ created : ERC20ApprovalRecord,
      (recordERC20Approval (Db.mk [] [] [] [] [])
        { noChain with getTransactionReceipt := fun _ => some (Receipt.mk 12) } 10
        "0xAaA" "0xBbB" USDT_ADDRESS "0x111").status = 200 ∧
      (recordERC20Approval (Db.mk [] [] [] [] [])
        { noChain with getTransactionReceipt := fun _ => some (Receipt.mk 12) } 10
        "0xAaA" "0xBbB" USDT_ADDRESS "0x111").body = .ok created false ∧
      (recordERC20Approval (Db.mk [] [] [] [] [])
        { noChain with getTransactionReceipt := fun _ => some (Receipt.mk 12) } 10
        "0xAaA" "0xBbB" USDT_ADDRESS "0x111").db.erc20Approvals =
        (Db.mk [] [] [] [] []).erc20Approvals ++ [created] ∧
      (recordERC20Approval
        (recordERC20Approval (Db.mk [] [] [] [] [])
          { noChain with getTransactionReceipt := fun _ => some (Receipt.mk 12) } 10
          "0xAaA" "0xBbB" USDT_ADDRESS "0x111").db
        { noChain with getTransactionReceipt := fun _ => some (Receipt.mk 12) } 20
        "0xAaA" "0xBbB" USDT_ADDRESS "0x111").status = 200 ∧
      (recordERC20Approval
        (recordERC20Approval (Db.mk [] [] [] [] [])
          { noChain with getTransactionReceipt := fun _ => some (Receipt.mk 12) } 10
          "0xAaA" "0xBbB" USDT_ADDRESS "0x111").db
        { noChain with getTransactionReceipt := fun _ => some (Receipt.mk 12) } 20
        "0xAaA" "0xBbB" USDT_ADDRESS "0x111").body = .ok created true ∧
      (recordERC20Approval
        (recordERC20Approval (Db.mk [] [] [] [] [])
          { noChain with getTransactionReceipt := fun _ => some (Receipt.mk 12) } 10
          "0xAaA" "0xBbB" USDT_ADDRESS "0x111").db
        { noChain with getTransactionReceipt := fun _ => some (Receipt.mk 12) } 20
        "0xAaA" "0xBbB" USDT_ADDRESS "0x111").db =
        (recordERC20Approval (Db.mk [] [] [] [] [])
          { noChain with getTransactionReceipt := fun _ => some (Receipt.mk 12) } 10
          "0xAaA" "0xBbB" USDT_ADDRESS "0x111").db ∧
      (recordERC20Approval
        (recordERC20Approval (Db.mk [] [] [] [] [])
          { noChain with getTransactionReceipt := fun _ => some (Receipt.mk 12) } 10
          "0xAaA" "0xBbB" USDT_ADDRESS "0x111").db
        { noChain with getTransactionReceipt := fun _ => some (Receipt.mk 12) } 20
        "0xAaA" "0xBbB" USDT_ADDRESS "0x111").calls = []) :=
  ⟨by decide, by decide, rfl,
    recordERC20Approval_idempotent (Db.mk [] [] [] [] [])
      { noChain with getTransactionReceipt := fun _ => some (Receipt.mk 12) } 10 20
      "0xAaA" "0xBbB" "0xAaA" "0xBbB" USDT_ADDRESS "0x111"
      ("USDT", "Tether USD") (Receipt.mk 12)
      (by decide) (by decide) (by decide) (by decide) (by decide) (by decide)
      (by decide) (by decide) rfl⟩

/-- C10: on the fresh-insert path (supported token, no existing row, receipt
found) the stored `ERC20ApprovalRecord` has `isApproved = true`
unconditionally, and the only gateway call made is the receipt lookup — no
live allowance or approval read ever happens, whatever the chain state.  (The
NFT-approval path `recordApproval`, by contrast, derives `isApproved` from a
live `isApprovedForAll` read.) -/
theorem recordERC20Approval_unconditionally_approved
    (db : Db) (chain : Chain) (now : Nat)
    (walletAddress operatorAddress tokenContract txHash : String)
    (symbolName : String × String) (receipt : Receipt)
    (h1 : ¬ walletAddress = "") (h2 : ¬ operatorAddress = "")
    (h3 : ¬ tokenContract = "") (h4 : ¬ txHash = "")
    (hsupp : tokenInfoFor? (jsLower tokenContract) = some symbolName)
    (hnew : db.erc20Approvals.find?
      (fun a => a.txHash = txHash ∧ a.tokenContract = jsLower tokenContract) = none)
    (hreceipt : chain.getTransactionReceipt txHash = some receipt) :
    ∃ created : ERC20ApprovalRecord,
      (recordERC20Approval db chain now walletAddress operatorAddress tokenContract
        txHash).body = .ok created false ∧
      created.isApproved = true ∧
      (recordERC20Approval db chain now walletAddress operatorAddress tokenContract
        txHash).db.erc20Approvals = db.erc20Approvals ++ [created] ∧
      (recordERC20Approval db chain now walletAddress operatorAddress tokenContract
        txHash).calls = [.receiptLookup txHash] := by
  have hfirst := recordERC20Approval_fresh db chain now walletAddress operatorAddress
    tokenContract txHash symbolName receipt h1 h2 h3 h4 hsupp hnew hreceipt
  exact ⟨{ walletAddress := jsLower walletAddress
           operatorAddress := jsLower operatorAddress
           tokenContract := jsLower tokenContract
           tokenSymbol := symbolName.1, txHash := txHash
           blockNumber := some receipt.blockNumber
           isApproved := true, timestamp := now },
    by rw [hfirst], rfl, by rw [hfirst], by rw [hfirst]⟩

/-- Witness for C10: a chain whose live reads would all fail (so no approval
state can possibly have been read) still records `isApproved = true` from a
confirmed transaction hash alone. -/
theorem recordERC20Approval_unconditionally_approved_witness :
    (tokenInfoFor? (jsLower USDC_ADDRESS) = some ("USDC", "USD Coin")) ∧
    ((Db.mk [] [] [] [] []).erc20Approvals.find?
      (fun a => a.txHash = "0x222" ∧ a.tokenContract = jsLower USDC_ADDRESS) = none) ∧
    (∃ created : ERC20ApprovalRecord,
      (recordERC20Approval (Db.mk [] [] [] [] [])
        { noChain with getTransactionReceipt := fun _ => some (Receipt.mk 34) } 11
        "0xCcC" "0xDdD" USDC_ADDRESS "0x222").body = .ok created false ∧
      created.isApproved = true ∧
      (recordERC20Approval (Db.mk [] [] [] [] [])
        { noChain with getTransactionReceipt := fun _ => some (Receipt.mk 34) } 11
        "0xCcC" "0xDdD" USDC_ADDRESS "0x222").db.erc20Approvals =
        (Db.mk [] [] [] [] []).erc20Approvals ++ [created] ∧
      (recordERC20Approval (Db.mk [] [] [] [] [])
        { noChain with getTransactionReceipt := fun _ => some (Receipt.mk 34) } 11
        "0xCcC" "0xDdD" USDC_ADDRESS "0x222").calls = [.receiptLookup "0x222"]) :=
  ⟨by decide, by decide,
    recordERC20Approval_unconditionally_approved (Db.mk [] [] [] [] [])
      { noChain with getTransactionReceipt := fun _ => some (Receipt.mk 34) } 11
      "0xCcC" "0xDdD" USDC_ADDRESS "0x222" ("USDC", "USD Coin") (Receipt.mk 34)
      (by decide) (by decide) (by decide) (by decide) (by decide) (by decide) rfl⟩

/-! ## C6 : recordApproval replay -/

/-- Gateway for the replay scenario: receipt present, live approval `true`. -/
def replayChain : Chain :=
  { noChain with getTransactionReceipt := fun _ => some (Receipt.mk 4)
                 checkApproval := fun _ _ => .ok true }

/-- Counterexample to C6 as stated: replaying `recordApproval` with the
already-recorded `txHash = "0x111"` does error the caller — the duplicate-key
rejection surfaces as a 500 with the Mongo error message, and no existing
record is returned (the body is an error, not an approval).  Only the
no-duplicate-row half of the claim holds: the ledger is unchanged. -/
theorem recordApproval_replay_errors_caller :
    (recordApproval (Db.mk [] [staleApprovalRow] [] [] []) replayChain 5
      "0xaaa" "0xbbb" "0x111").status = 500 ∧
    (recordApproval (Db.mk [] [staleApprovalRow] [] [] []) replayChain 5
      "0xaaa" "0xbbb" "0x111").body = .err duplicateKeyErrorMessage ∧
    (recordApproval (Db.mk [] [staleApprovalRow] [] [] []) replayChain 5
      "0xaaa" "0xbbb" "0x111").db.approvals = [staleApprovalRow] := by
  decide

/-- C6 (amended): replaying `recordApproval` with a `txHash` already present
in the approval ledger has the duplicate insert rejected by the unique
`txHash` index, so no duplicate row is created and the database is unchanged
— but the rejection is surfaced to the caller as a 500 error carrying the
duplicate-key message, and the existing record is not returned. -/
theorem recordApproval_replay_rejected_with_error
    (db : Db) (chain : Chain) (now : Nat)
    (walletAddress operatorAddress txHash : String)
    (receipt : Receipt) (approvedNow : Bool)
    (h1 : ¬ walletAddress = "") (h2 : ¬ operatorAddress = "") (h3 : ¬ txHash = "")
    (hreceipt : chain.getTransactionReceipt txHash = some receipt)
    (happr : chain.checkApproval walletAddress operatorAddress = .ok approvedNow)
    (hdup : db.approvals.any (fun a => a.txHash = txHash) = true) :
    recordApproval db chain now walletAddress operatorAddress txHash =
      { status := 500, body := .err duplicateKeyErrorMessage, db := db
        calls := [.receiptLookup txHash,
                  .approvalRead walletAddress operatorAddress] } := by
  simp only [recordApproval, hreceipt, happr, hdup]
  rw [if_neg (by simp [h1, h2, h3])]
  simp

/-- Witness for the amended C6: the concrete replay of `0x111`. -/
theorem recordApproval_replay_rejected_with_error_witness :
    (replayChain.getTransactionReceipt "0x111" = some (Receipt.mk 4)) ∧
    ((Db.mk [] [staleApprovalRow] [] [] []).approvals.any
      (fun a => a.txHash = "0x111") = true) ∧
    recordApproval (Db.mk [] [staleApprovalRow] [] [] []) replayChain 5
      "0xaaa" "0xbbb" "0x111" =
      { status := 500, body := .err duplicateKeyErrorMessage
        db := Db.mk [] [staleApprovalRow] [] [] []
        calls := [.receiptLookup "0x111", .approvalRead "0xaaa" "0xbbb"] } :=
  ⟨rfl, by decide,
    recordApproval_replay_rejected_with_error (Db.mk [] [staleApprovalRow] [] [] [])
      replayChain 5 "0xaaa" "0xbbb" "0x111" (Receipt.mk 4) true
      (by decide) (by decide) (by decide) rfl rfl (by decide)⟩

/-! ## C4 : Transfer event never persists the redeemed status -/

/-- C4 (code bug): on a Transfer event whose `to` address matches the stored
`recipientAddress` of a `minted` NFT case-insensitively, the handler computes
the `redeemed` in-memory document — `transferEventDoc` below — but, lacking
the `nft.save()` call, persists nothing: the database after the event is
byte-for-byte the one before, and the stored status remains `minted`. -/
theorem handleTransferEvent_drops_redeemed_update :
    handleEvent noChain (Db.mk [sampleNFT] [] [] [] [])
      (.transfer "0xop" "0xAAA" "123") = Db.mk [sampleNFT] [] [] [] [] ∧
    transferEventDoc (Db.mk [sampleNFT] [] [] [] []) "0xAAA" "123" =
      some { sampleNFT with status := .redeemed } ∧
    ((handleEvent noChain (Db.mk [sampleNFT] [] [] [] [])
      (.transfer "0xop" "0xAAA" "123")).nfts.find?
        (fun n => n.tokenId = "123")).map NFTRecord.status = some .minted := by
  decide

/-! ## C3 : status monotonicity of the event handlers -/

/-- An NFT already pulled back (terminal state per the status state machine). -/
def pulledNFT : NFTRecord :=
  { tokenId := "9", recipientAddress := "0xaaa", investorAddress := "0xbbb"
    tokenURI := "uri9", status := .pulled, mintTxHash := some "0xm"
    pullTxHash := some "0xp", originalFilename := some "a.pdf", createdAt := 2 }

/-- Counterexample to C3 as stated: delivering a `TokenMinted` event for a
token whose record is in status `pulled` overwrites the status back to
`minted` — the handler updates unconditionally, so `pulled` is not preserved
under every event sequence. -/
theorem tokenMinted_event_overwrites_pulled :
    (Db.mk [pulledNFT] [] [] [] []).nfts.map NFTRecord.status = [.pulled] ∧
    (runEvents noChain (Db.mk [pulledNFT] [] [] [] [])
      [.tokenMinted "0xaaa" "9" "uri9" "0xm2"]).nfts =
      [{ pulledNFT with status := .minted, mintTxHash := some "0xm2" }] := by
  decide

/-- `handleTransferEvent` persists nothing. -/
theorem handleTransferEvent_db (db : Db) (a b c : String) :
    handleTransferEvent db a b c = db := by
  unfold handleTransferEvent
  split <;> rfl

/-- `handleApprovalForAllEvent` never touches the NFT collection. -/
theorem handleApprovalForAllEvent_nfts (chain : Chain) (db : Db)
    (o p : String) (ap : Bool) (tx : String) (bn : Nat) :
    (handleApprovalForAllEvent chain db o p ap tx bn).nfts = db.nfts := by
  unfold handleApprovalForAllEvent
  split <;> rfl

/-- `findOneAndUpdateNFT` acts positionally: each position either keeps its
record or holds the updated image of the record previously there. -/
theorem findOneAndUpdateNFT_get? (l : List NFTRecord) (tid : String)
    (f : NFTRecord → NFTRecord) (i : Nat) :
    (findOneAndUpdateNFT l tid f).get? i = l.get? i ∨
    ∃ n, l.get? i = some n ∧ (findOneAndUpdateNFT l tid f).get? i = some (f n) := by
  induction l generalizing i with
  | nil => left; rfl
  | cons a as ih =>
    unfold findOneAndUpdateNFT
    by_cases ha : a.tokenId = tid
    · rw [if_pos ha]
      cases i with
      | zero => right; exact ⟨a, rfl, rfl⟩
      | succ j => left; rfl
    · rw [if_neg ha]
      cases i with
      | zero => left; rfl
      | succ j => exact ih j

/-- One delivered event keeps a `pulled` record `pulled`, unless it is a
`TokenMinted` event; and in every case it keeps a `pulled`-or-`minted`
record `pulled`-or-`minted`. -/
theorem handleEvent_status_step (chain : Chain) (db : Db) (e : ChainEvent)
    (i : Nat) (n : NFTRecord) (hn : db.nfts.get? i = some n) :
    (e.isTokenMinted = false → n.status = .pulled →
      ∃ n', (handleEvent chain db e).nfts.get? i = some n' ∧ n'.status = .pulled) ∧
    ((n.status = .pulled ∨ n.status = .minted) →
      ∃ n', (handleEvent chain db e).nfts.get? i = some n' ∧
        (n'.status = .pulled ∨ n'.status = .minted)) := by
  cases e with
  | transfer a b c =>
    have hdb : (handleEvent chain db (.transfer a b c)).nfts.get? i = some n := by
      show (handleTransferEvent db a b c).nfts.get? i = some n
      rw [handleTransferEvent_db]
      exact hn
    exact ⟨fun _ hs => ⟨n, hdb, hs⟩, fun hs => ⟨n, hdb, hs⟩⟩
  | approvalForAll o p ap tx bn =>
    have hdb : (handleEvent chain db (.approvalForAll o p ap tx bn)).nfts.get? i =
        some n := by
      show (handleApprovalForAllEvent chain db o p ap tx bn).nfts.get? i = some n
      rw [handleApprovalForAllEvent_nfts]
      exact hn
    exact ⟨fun _ hs => ⟨n, hdb, hs⟩, fun hs => ⟨n, hdb, hs⟩⟩
  | tokenPulledBack a p c tx =>
    have hpos := findOneAndUpdateNFT_get? db.nfts c
      (fun m => { m with status := .pulled, pullTxHash := some tx }) i
    have hkeep : ∀ hsp : (n.status = .pulled ∨ n.status = .minted),
        ∃ n', (handleEvent chain db (.tokenPulledBack a p c tx)).nfts.get? i =
          some n' ∧ (n'.status = .pulled ∨ n'.status = .minted) := by
      intro hsp
      rcases hpos with h | ⟨m, hm, h⟩
      · refine ⟨n, ?_, hsp⟩
        show (findOneAndUpdateNFT db.nfts c
          (fun m => { m with status := .pulled, pullTxHash := some tx })).get? i = some n
        rw [h]
        exact hn
      · refine ⟨{ m with status := .pulled, pullTxHash := some tx }, ?_, Or.inl rfl⟩
        exact h
    constructor
    · intro _ hs
      rcases hpos with h | ⟨m, hm, h⟩
      · refine ⟨n, ?_, hs⟩
        show (findOneAndUpdateNFT db.nfts c
          (fun m => { m with status := .pulled, pullTxHash := some tx })).get? i = some n
        rw [h]
        exact hn
      · exact ⟨{ m with status := .pulled, pullTxHash := some tx }, h, rfl⟩
    · exact hkeep
  | tokenMinted a c u tx =>
    have hpos := findOneAndUpdateNFT_get? db.nfts c
      (fun m => { m with status := .minted, mintTxHash := some tx }) i
    constructor
    · intro hfalse _
      exact absurd hfalse (by simp [ChainEvent.isTokenMinted])
    · intro hs
      rcases hpos with h | ⟨m, hm, h⟩
      · refine ⟨n, ?_, hs⟩
        show (findOneAndUpdateNFT db.nfts c
          (fun m => { m with status := .minted, mintTxHash := some tx })).get? i = some n
        rw [h]
        exact hn
      · exact ⟨{ m with status := .minted, mintTxHash := some tx }, h, Or.inr rfl⟩

/-- Over any event sequence, a record that is `pulled` or `minted` stays
`pulled` or `minted` (so no handler ever takes it back to `uploaded`). -/
theorem runEvents_pulled_or_minted
    (chain : Chain) (events : List ChainEvent) (db : Db)
    (i : Nat) (n : NFTRecord)
    (hn : db.nfts.get? i = some n)
    (hs : n.status = .pulled ∨ n.status = .minted) :
    ∃ n', (runEvents chain db events).nfts.get? i = some n' ∧
      (n'.status = .pulled ∨ n'.status = .minted) := by
  induction events generalizing db n with
  | nil => exact ⟨n, hn, hs⟩
  | cons e es ih =>
    obtain ⟨n1, hn1, hs1⟩ := (handleEvent_status_step chain db e i n hn).2 hs
    exact ih (handleEvent chain db e) n1 hn1 hs1

/-- Over any event sequence with no `TokenMinted` event, a `pulled` record
stays `pulled`. -/
theorem runEvents_pulled_stays_pulled
    (chain : Chain) (events : List ChainEvent) (db : Db)
    (i : Nat) (n : NFTRecord)
    (hall : ∀ e ∈ events, e.isTokenMinted = false)
    (hn : db.nfts.get? i = some n) (hs : n.status = .pulled) :
    ∃ n', (runEvents chain db events).nfts.get? i = some n' ∧
      n'.status = .pulled := by
  induction events generalizing db n with
  | nil => exact ⟨n, hn, hs⟩
  | cons e es ih =>
    obtain ⟨n1, hn1, hs1⟩ := (handleEvent_status_step chain db e i n hn).1
      (hall e (List.mem_cons_self e es)) hs
    exact ih (handleEvent chain db e) n1
      (fun x hx => hall x (List.mem_cons_of_mem e hx)) hn1 hs1

/-- C3 (amended): over any delivered event sequence containing no
`TokenMinted` event, every NFT record in status `pulled` stays `pulled` — the
Transfer, ApprovalForAll and TokenPulledBack handlers never overwrite it; and
over an arbitrary event sequence a `pulled` record can only ever be `pulled`
or `minted` afterwards — in particular no handler ever takes it back to
`uploaded`.  (The `TokenMinted` handler does overwrite `pulled` to `minted`,
as the counterexample shows.) -/
theorem pulled_status_monotone
    (chain : Chain) (db : Db) (events : List ChainEvent)
    (i : Nat) (n : NFTRecord)
    (hn : db.nfts.get? i = some n) (hs : n.status = .pulled) :
    ((∀ e ∈ events, e.isTokenMinted = false) →
      ∃ n', (runEvents chain db events).nfts.get? i = some n' ∧
        n'.status = .pulled) ∧
    (∃ n', (runEvents chain db events).nfts.get? i = some n' ∧
      (n'.status = .pulled ∨ n'.status = .minted)) :=
  ⟨fun hall => runEvents_pulled_stays_pulled chain events db i n hall hn hs,
   runEvents_pulled_or_minted chain events db i n hn (Or.inl hs)⟩

/-- Witness for the amended C3: the pulled token `9` survives a Transfer, an
ApprovalForAll and a TokenPulledBack event untouched in status `pulled`. -/
theorem pulled_status_monotone_witness :
    ((Db.mk [pulledNFT] [] [] [] []).nfts.get? 0 = some pulledNFT) ∧
    pulledNFT.status = .pulled ∧
    (((∀ e ∈ [ChainEvent.transfer "0xop" "0xAAA" "9",
               ChainEvent.approvalForAll "0xaaa" "0xbbb" false "0x7" 3,
               ChainEvent.tokenPulledBack "0xaaa" "0xbbb" "9" "0xp2"],
        e.isTokenMinted = false) →
      ∃ n', (runEvents noChain (Db.mk [pulledNFT] [] [] [] [])
          [ChainEvent.transfer "0xop" "0xAAA" "9",
           ChainEvent.approvalForAll "0xaaa" "0xbbb" false "0x7" 3,
           ChainEvent.tokenPulledBack "0xaaa" "0xbbb" "9" "0xp2"]).nfts.get? 0 =
          some n' ∧ n'.status = .pulled) ∧
    (∃ n', (runEvents noChain (Db.mk [pulledNFT] [] [] [] [])
        [ChainEvent.transfer "0xop" "0xAAA" "9",
         ChainEvent.approvalForAll "0xaaa" "0xbbb" false "0x7" 3,
         ChainEvent.tokenPulledBack "0xaaa" "0xbbb" "9" "0xp2"]).nfts.get? 0 =
        some n' ∧ (n'.status = .pulled ∨ n'.status = .minted))) :=
  ⟨by decide, by decide,
    pulled_status_monotone noChain (Db.mk [pulledNFT] [] [] [] [])
      [ChainEvent.transfer "0xop" "0xAAA" "9",
       ChainEvent.approvalForAll "0xaaa" "0xbbb" false "0x7" 3,
       ChainEvent.tokenPulledBack "0xaaa" "0xbbb" "9" "0xp2"]
      0 pulledNFT (by decide) (by decide)⟩

/-! ## C8 / C9 : helper lemmas on the view builder -/

theorem mem_jsSetDedupGo (x : String) :
    ∀ (l seen : List String), x ∈ jsSetDedupGo l seen ↔ x ∈ l ∧ x ∉ seen := by
  intro l
  induction l with
  | nil => intro seen; simp [jsSetDedupGo]
  | cons a as ih =>
    intro seen
    unfold jsSetDedupGo
    by_cases ha : a ∈ seen
    · rw [if_pos ha, ih]
      constructor
      · rintro ⟨hx, hns⟩
        exact ⟨List.mem_cons_of_mem a hx, hns⟩
      · rintro ⟨hx, hns⟩
        rcases List.mem_cons.mp hx with rfl | hx
        · exact absurd ha hns
        · exact ⟨hx, hns⟩
    · rw [if_neg ha]
      constructor
      · intro hx
        rcases List.mem_cons.mp hx with rfl | hx
        · exact ⟨List.mem_cons_self x as, ha⟩
        · rcases (ih (a :: seen)).mp hx with ⟨hmem, hns⟩
          exact ⟨List.mem_cons_of_mem a hmem,
            fun hs => hns (List.mem_cons_of_mem a hs)⟩
      · rintro ⟨hx, hns⟩
        rcases List.mem_cons.mp hx with rfl | hx
        · exact List.mem_cons_self x _
        · by_cases hxa : x = a
          · subst hxa; exact List.mem_cons_self x _
          · exact List.mem_cons_of_mem a ((ih (a :: seen)).mpr
              ⟨hx, fun hs => (List.mem_cons.mp hs).elim hxa hns⟩)

theorem mem_jsSetDedup (x : String) (l : List String) :
    x ∈ jsSetDedup l ↔ x ∈ l := by
  rw [jsSetDedup, mem_jsSetDedupGo]
  simp

/-- Membership characterisation of a successful `Promise.all`. -/
theorem mapExcept_ok_mem {α β ε : Type} (f : α → Except ε β) :
    ∀ (l : List α) (ys : List β), mapExcept f l = .ok ys →
      ∀ b, b ∈ ys ↔ ∃ a ∈ l, f a = .ok b := by
  intro l
  induction l with
  | nil =>
    intro ys h b
    simp only [mapExcept] at h
    cases h
    simp
  | cons a as ih =>
    intro ys h b
    simp only [mapExcept] at h
    cases hfa : f a with
    | error e => rw [hfa] at h; cases h
    | ok v =>
      rw [hfa] at h
      cases hrest : mapExcept f as with
      | error e => rw [hrest] at h; cases h
      | ok vs =>
        rw [hrest] at h
        cases h
        constructor
        · intro hb
          rcases List.mem_cons.mp hb with rfl | hb
          · exact ⟨a, List.mem_cons_self a as, hfa⟩
          · obtain ⟨x, hx, hfx⟩ := (ih vs hrest b).mp hb
            exact ⟨x, List.mem_cons_of_mem a hx, hfx⟩
        · rintro ⟨x, hx, hfx⟩
          rcases List.mem_cons.mp hx with rfl | hx
          · rw [hfa] at hfx
            cases hfx
            exact List.mem_cons_self b vs
          · exact List.mem_cons_of_mem v ((ih vs hrest b).mpr ⟨x, hx, hfx⟩)

/-- A successful summary is the source's object literal, built in one of the
two short-circuit branches. -/
theorem buildRecipientSummary_ok_shape
    (chain : Chain) (contractAddress operatorAddress : String)
    (storedApprovals : List ERC20ApprovalRecord) (nfts : List NFTRecord)
    (pullbacks : List ERC20PullbackRecord) (recipientAddress : String)
    (s : RecipientSummary)
    (hok : buildRecipientSummary chain contractAddress operatorAddress storedApprovals
      nfts pullbacks recipientAddress = .ok s) :
    ∃ ua : Int,
      jsBigInt? (liveERC20Status chain USDT_ADDRESS recipientAddress).2 = some ua ∧
      (((0 < ua ∧ (storedUsdcFor storedApprovals recipientAddress).isSome = true) ∧
        s = mkRecipientSummary chain contractAddress operatorAddress storedApprovals
          nfts pullbacks recipientAddress
          ((storedUsdtFor storedApprovals recipientAddress).isSome || decide (0 < ua))
          true true) ∨
      (¬ (0 < ua ∧ (storedUsdcFor storedApprovals recipientAddress).isSome = true) ∧
        ∃ ca : Int,
          jsBigInt? (liveERC20Status chain USDC_ADDRESS recipientAddress).2 = some ca ∧
          s = mkRecipientSummary chain contractAddress operatorAddress storedApprovals
            nfts pullbacks recipientAddress
            ((storedUsdtFor storedApprovals recipientAddress).isSome || decide (0 < ua))
            ((storedUsdcFor storedApprovals recipientAddress).isSome || decide (0 < ca))
            (decide (0 < ua) || decide (0 < ca) ||
              liveNFTApproval chain contractAddress recipientAddress))) := by
  unfold buildRecipientSummary at hok
  cases hua : jsBigInt? (liveERC20Status chain USDT_ADDRESS recipientAddress).2 with
  | none => rw [hua] at hok; cases hok
  | some ua =>
    rw [hua] at hok
    dsimp only at hok
    refine ⟨ua, rfl, ?_⟩
    by_cases hcond : 0 < ua ∧ (storedUsdcFor storedApprovals recipientAddress).isSome = true
    · rw [if_pos hcond] at hok
      cases hok
      exact Or.inl ⟨hcond, rfl⟩
    · rw [if_neg hcond] at hok
      cases hca : jsBigInt? (liveERC20Status chain USDC_ADDRESS recipientAddress).2 with
      | none => rw [hca] at hok; cases hok
      | some ca =>
        rw [hca] at hok
        cases hok
        exact Or.inr ⟨hcond, ca, rfl, rfl⟩

/-- Fields of a successful summary that are the same in both branches. -/
theorem buildRecipientSummary_fields
    (chain : Chain) (contractAddress operatorAddress : String)
    (storedApprovals : List ERC20ApprovalRecord) (nfts : List NFTRecord)
    (pullbacks : List ERC20PullbackRecord) (recipientAddress : String)
    (s : RecipientSummary)
    (hok : buildRecipientSummary chain contractAddress operatorAddress storedApprovals
      nfts pullbacks recipientAddress = .ok s) :
    s.walletAddress = recipientAddress ∧
    s.usdtBalance = (liveERC20Status chain USDT_ADDRESS recipientAddress).1 ∧
    s.usdt.allowance = (liveERC20Status chain USDT_ADDRESS recipientAddress).2 ∧
    s.usdcBalance = (liveERC20Status chain USDC_ADDRESS recipientAddress).1 ∧
    s.usdc.allowance = (liveERC20Status chain USDC_ADDRESS recipientAddress).2 ∧
    s.nftApproved = liveNFTApproval chain contractAddress recipientAddress ∧
    s.firstApprovalAt = minTimestamp?
      ((recipientStoredApprovals storedApprovals recipientAddress).map (·.timestamp)) := by
  obtain ⟨ua, _, hshape⟩ := buildRecipientSummary_ok_shape chain contractAddress
    operatorAddress storedApprovals nfts pullbacks recipientAddress s hok
  rcases hshape with ⟨_, rfl⟩ | ⟨_, ca, _, rfl⟩ <;>
    exact ⟨rfl, rfl, rfl, rfl, rfl, rfl, rfl⟩

/-- `hasAnyApproval` of a successful summary holds exactly when a stored USDT
or USDC approval row exists for the recipient, or a live allowance is
strictly positive, or the live NFT approval flag is set. -/
theorem buildRecipientSummary_hasAnyApproval
    (chain : Chain) (contractAddress operatorAddress : String)
    (storedApprovals : List ERC20ApprovalRecord) (nfts : List NFTRecord)
    (pullbacks : List ERC20PullbackRecord) (recipientAddress : String)
    (s : RecipientSummary)
    (hok : buildRecipientSummary chain contractAddress operatorAddress storedApprovals
      nfts pullbacks recipientAddress = .ok s) :
    s.hasAnyApproval = true ↔
      ((storedUsdtFor storedApprovals recipientAddress).isSome = true ∨
       (storedUsdcFor storedApprovals recipientAddress).isSome = true ∨
       (∃ ua : Int, jsBigInt?
          (liveERC20Status chain USDT_ADDRESS recipientAddress).2 = some ua ∧ 0 < ua) ∨
       (∃ ca : Int, jsBigInt?
          (liveERC20Status chain USDC_ADDRESS recipientAddress).2 = some ca ∧ 0 < ca) ∨
       liveNFTApproval chain contractAddress recipientAddress = true) := by
  obtain ⟨ua, hua, hshape⟩ := buildRecipientSummary_ok_shape chain contractAddress
    operatorAddress storedApprovals nfts pullbacks recipientAddress s hok
  rcases hshape with ⟨⟨hpos, hsc⟩, rfl⟩ | ⟨hcond, ca, hca, rfl⟩
  · simp only [mkRecipientSummary, Bool.or_true]
    constructor
    · intro _
      exact Or.inr (Or.inr (Or.inl ⟨ua, hua, hpos⟩))
    · intro _
      trivial
  · simp only [mkRecipientSummary, Bool.or_eq_true, decide_eq_true_eq]
    constructor
    · rintro ((h | h) | ((h | h) | h))
      · exact Or.inl h
      · exact Or.inr (Or.inl h)
      · exact Or.inr (Or.inr (Or.inl ⟨ua, hua, h⟩))
      · exact Or.inr (Or.inr (Or.inr (Or.inl ⟨ca, hca, h⟩)))
      · exact Or.inr (Or.inr (Or.inr (Or.inr h)))
    · rintro (h | h | ⟨ua', hua', h⟩ | ⟨ca', hca', h⟩ | h)
      · exact Or.inl (Or.inl h)
      · exact Or.inl (Or.inr h)
      · rw [hua] at hua'
        injection hua' with hua'
        exact Or.inr (Or.inl (Or.inl (hua' ▸ h)))
      · rw [hca] at hca'
        injection hca' with hca'
        exact Or.inr (Or.inl (Or.inr (hca' ▸ h)))
      · exact Or.inr (Or.inr h)

/-- A recipient's summary depends on the gateway only through the three live
reads made for that recipient: two gateways agreeing on them build the same
summary. -/
theorem buildRecipientSummary_congr_chain
    (chain chain' : Chain) (contractAddress operatorAddress : String)
    (storedApprovals : List ERC20ApprovalRecord) (nfts : List NFTRecord)
    (pullbacks : List ERC20PullbackRecord) (r : String)
    (h1 : chain'.checkERC20Status USDT_ADDRESS r = chain.checkERC20Status USDT_ADDRESS r)
    (h2 : chain'.checkERC20Status USDC_ADDRESS r = chain.checkERC20Status USDC_ADDRESS r)
    (h3 : chain'.checkApproval r contractAddress = chain.checkApproval r contractAddress) :
    buildRecipientSummary chain' contractAddress operatorAddress storedApprovals
      nfts pullbacks r =
    buildRecipientSummary chain contractAddress operatorAddress storedApprovals
      nfts pullbacks r := by
  unfold buildRecipientSummary mkRecipientSummary liveERC20Status liveNFTApproval
  rw [h1, h2, h3]

/-- Reduction of `getConnectedRecipients` when every candidate summary
succeeds. -/
theorem getConnectedRecipients_ok
    (db : Db) (chain : Chain) (contractAddr operator : String)
    (summaries : List RecipientSummary)
    (hop : ¬ operator = "")
    (hsum : mapExcept
      (buildRecipientSummary chain contractAddr (jsLower operator)
        (storedApprovalsFor db (jsLower operator)) (operatorNFTs db (jsLower operator))
        db.erc20Pullbacks)
      (candidateRecipients db (jsLower operator)) = .ok summaries) :
    getConnectedRecipients db chain (some contractAddr) operator =
      { status := 200
        recipients := List.insertionSort summaryLE
          (summaries.filter (·.hasAnyApproval))
        totalRecipients := (candidateRecipients db (jsLower operator)).length
        errorMessage := none } := by
  simp only [getConnectedRecipients, hsum]
  rw [if_neg hop]

/-- C8: when the live USDT read throws for recipient `r`, `r`'s summary is
still built, with USDT balance and allowance defaulting to `"0"` (and the NFT
approval flag defaulting to `false` if its own read throws); the whole
response still succeeds with `r` included (given `r` clears the
`hasAnyApproval` filter); and every other recipient's summary is exactly what
it would be on a gateway where `r`'s USDT read succeeds — one RPC failure
never blanks the rest of the response. -/
theorem getConnectedRecipients_fault_isolated
    (db : Db) (chain chain' : Chain) (contractAddr operator r r' e : String)
    (summaries : List RecipientSummary) (s : RecipientSummary)
    (hop : ¬ operator = "")
    (husdt : chain.checkERC20Status USDT_ADDRESS r = .error e)
    (hsum : mapExcept
      (buildRecipientSummary chain contractAddr (jsLower operator)
        (storedApprovalsFor db (jsLower operator)) (operatorNFTs db (jsLower operator))
        db.erc20Pullbacks)
      (candidateRecipients db (jsLower operator)) = .ok summaries)
    (hcand : r ∈ candidateRecipients db (jsLower operator))
    (hs : buildRecipientSummary chain contractAddr (jsLower operator)
      (storedApprovalsFor db (jsLower operator)) (operatorNFTs db (jsLower operator))
      db.erc20Pullbacks r = .ok s)
    (happ : s.hasAnyApproval = true)
    (hne : r' ≠ r)
    (hagreeUsdt : chain'.checkERC20Status USDT_ADDRESS r' =
      chain.checkERC20Status USDT_ADDRESS r')
    (hagreeUsdc : chain'.checkERC20Status USDC_ADDRESS r' =
      chain.checkERC20Status USDC_ADDRESS r')
    (hagreeNft : chain'.checkApproval r' contractAddr =
      chain.checkApproval r' contractAddr) :
    s.usdtBalance = "0" ∧
    s.usdt.allowance = "0" ∧
    (∀ e2 : String, chain.checkApproval r contractAddr = .error e2 →
      s.nftApproved = false) ∧
    (getConnectedRecipients db chain (some contractAddr) operator).status = 200 ∧
    s ∈ (getConnectedRecipients db chain (some contractAddr) operator).recipients ∧
    buildRecipientSummary chain' contractAddr (jsLower operator)
      (storedApprovalsFor db (jsLower operator)) (operatorNFTs db (jsLower operator))
      db.erc20Pullbacks r' =
    buildRecipientSummary chain contractAddr (jsLower operator)
      (storedApprovalsFor db (jsLower operator)) (operatorNFTs db (jsLower operator))
      db.erc20Pullbacks r' := by
  have hlive : liveERC20Status chain USDT_ADDRESS r = ("0", "0") := by
    unfold liveERC20Status
    rw [husdt]
  have hfields := buildRecipientSummary_fields chain contractAddr (jsLower operator)
    (storedApprovalsFor db (jsLower operator)) (operatorNFTs db (jsLower operator))
    db.erc20Pullbacks r s hs
  have hred := getConnectedRecipients_ok db chain contractAddr operator summaries hop hsum
  refine ⟨?_, ?_, ?_, ?_, ?_, ?_⟩
  · rw [hfields.2.1, hlive]
  · rw [hfields.2.2.1, hlive]
  · intro e2 he2
    rw [hfields.2.2.2.2.2.1]
    unfold liveNFTApproval
    rw [he2]
  · rw [hred]
  · rw [hred]
    refine (List.perm_insertionSort summaryLE _).mem_iff.mpr ?_
    refine List.mem_filter.mpr ⟨?_, happ⟩
    exact (mapExcept_ok_mem _ _ summaries hsum s).mpr ⟨r, hcand, hs⟩
  · exact buildRecipientSummary_congr_chain chain chain' contractAddr (jsLower operator)
      (storedApprovalsFor db (jsLower operator)) (operatorNFTs db (jsLower operator))
      db.erc20Pullbacks r' hagreeUsdt hagreeUsdc hagreeNft

/-- Stored USDT approval of recipient `0xaaa` towards operator `0xop`. -/
def c8Row : ERC20ApprovalRecord :=
  { walletAddress := "0xaaa", operatorAddress := "0xop"
    tokenContract := jsLower USDT_ADDRESS, tokenSymbol := "USDT"
    txHash := "0x1", blockNumber := some 5, isApproved := true, timestamp := 10 }

/-- Database for the fault-isolation scenario. -/
def c8Db : Db := Db.mk [] [] [c8Row] [] []

/-- Gateway whose ERC-20 reads throw for `0xaaa` only. -/
def c8Chain : Chain :=
  { noChain with
    checkERC20Status := fun _ h =>
      if h = "0xaaa" then .error "rpc" else .ok ("5", "7")
    checkApproval := fun _ _ => .ok true }

/-- The same gateway with the failing read repaired. -/
def c8ChainFixed : Chain :=
  { noChain with
    checkERC20Status := fun _ _ => .ok ("5", "7")
    checkApproval := fun _ _ => .ok true }

/-- The summary the view builder produces for `0xaaa` under `c8Chain`. -/
def c8Summary : RecipientSummary :=
  mkRecipientSummary c8Chain "0xc" "0xop" (storedApprovalsFor c8Db "0xop")
    (operatorNFTs c8Db "0xop") c8Db.erc20Pullbacks "0xaaa" true false true

/-- Witness for C8: recipient `0xaaa` whose USDT read throws still appears in
the response with `"0"` defaults, and `0xccc`'s summary is unaffected by the
failure. -/
theorem getConnectedRecipients_fault_isolated_witness :
    (c8Chain.checkERC20Status USDT_ADDRESS "0xaaa" = .error "rpc") ∧
    (mapExcept
      (buildRecipientSummary c8Chain "0xc" (jsLower "0xop")
        (storedApprovalsFor c8Db (jsLower "0xop")) (operatorNFTs c8Db (jsLower "0xop"))
        c8Db.erc20Pullbacks)
      (candidateRecipients c8Db (jsLower "0xop")) = .ok [c8Summary]) ∧
    ("0xaaa" ∈ candidateRecipients c8Db (jsLower "0xop")) ∧
    (buildRecipientSummary c8Chain "0xc" (jsLower "0xop")
      (storedApprovalsFor c8Db (jsLower "0xop")) (operatorNFTs c8Db (jsLower "0xop"))
      c8Db.erc20Pullbacks "0xaaa" = .ok c8Summary) ∧
    (c8Summary.hasAnyApproval = true) ∧
    (c8Summary.usdtBalance = "0" ∧
     c8Summary.usdt.allowance = "0" ∧
     (∀ e2 : String, c8Chain.checkApproval "0xaaa" "0xc" = .error e2 →
       c8Summary.nftApproved = false) ∧
     (getConnectedRecipients c8Db c8Chain (some "0xc") "0xop").status = 200 ∧
     c8Summary ∈ (getConnectedRecipients c8Db c8Chain (some "0xc") "0xop").recipients ∧
     buildRecipientSummary c8ChainFixed "0xc" (jsLower "0xop")
       (storedApprovalsFor c8Db (jsLower "0xop")) (operatorNFTs c8Db (jsLower "0xop"))
       c8Db.erc20Pullbacks "0xccc" =
     buildRecipientSummary c8Chain "0xc" (jsLower "0xop")
       (storedApprovalsFor c8Db (jsLower "0xop")) (operatorNFTs c8Db (jsLower "0xop"))
       c8Db.erc20Pullbacks "0xccc") :=
  ⟨rfl, by rfl, by decide, by rfl, by decide,
    getConnectedRecipients_fault_isolated c8Db c8Chain c8ChainFixed "0xc" "0xop"
      "0xaaa" "0xccc" "rpc" [c8Summary] c8Summary
      (by decide) rfl (by rfl) (by decide) (by rfl) (by decide)
      (by decide) rfl rfl rfl⟩

theorem tsLe_total (x y : Option Nat) : tsLe x y = true ∨ tsLe y x = true := by
  cases x <;> cases y <;> simp [tsLe] <;> omega

theorem tsLe_trans (x y z : Option Nat)
    (h1 : tsLe x y = true) (h2 : tsLe y z = true) : tsLe x z = true := by
  cases x <;> cases y <;> cases z <;> simp [tsLe] at * <;> omega

instance : IsTotal RecipientSummary summaryLE :=
  ⟨fun a b => tsLe_total a.firstApprovalAt b.firstApprovalAt⟩

instance : IsTrans RecipientSummary summaryLE :=
  ⟨fun a b c h1 h2 =>
    tsLe_trans a.firstApprovalAt b.firstApprovalAt c.firstApprovalAt h1 h2⟩

/-- The candidate set is exactly the union of stored-approval recipients and
NFT recipients of the operator, in lowercased form. -/
theorem mem_candidateRecipients (db : Db) (op r : String) :
    r ∈ candidateRecipients db op ↔
      (∃ a ∈ storedApprovalsFor db op, jsLower a.walletAddress = r) ∨
      (∃ n ∈ operatorNFTs db op, jsLower n.recipientAddress = r) := by
  unfold candidateRecipients
  rw [mem_jsSetDedup, List.mem_append, mem_jsSetDedup, mem_jsSetDedup]
  simp [List.mem_map]

/-- Under the invariant that every ledger row is an approved USDT or USDC row
(the only rows `recordERC20Approval` can create), the per-token stored-row
lookups of the view builder succeed exactly when some stored approval row for
the recipient exists. -/
theorem storedRow_iff (db : Db) (op r : String)
    (hwf : ∀ a ∈ db.erc20Approvals, a.isApproved = true ∧
      (jsLower a.tokenContract = jsLower USDT_ADDRESS ∨
       jsLower a.tokenContract = jsLower USDC_ADDRESS)) :
    ((storedUsdtFor (storedApprovalsFor db op) r).isSome = true ∨
     (storedUsdcFor (storedApprovalsFor db op) r).isSome = true) ↔
    ∃ a ∈ storedApprovalsFor db op, jsLower a.walletAddress = r := by
  unfold storedUsdtFor storedUsdcFor recipientStoredApprovals
  constructor
  · rintro (h | h) <;>
    · obtain ⟨a, ha, _⟩ := List.find?_isSome.mp h
      have hm := List.mem_filter.mp ha
      exact ⟨a, hm.1, by simpa using hm.2⟩
  · rintro ⟨a, ha, hw⟩
    have hmem : a ∈ (storedApprovalsFor db op).filter
        (fun x => jsLower x.walletAddress = r) :=
      List.mem_filter.mpr ⟨ha, by simpa using hw⟩
    have ha' : a ∈ db.erc20Approvals := (List.mem_filter.mp ha).1
    rcases (hwf a ha').2 with ht | ht
    · exact Or.inl (List.find?_isSome.mpr ⟨a, hmem, by simpa using ht⟩)
    · exact Or.inr (List.find?_isSome.mpr ⟨a, hmem, by simpa using ht⟩)

/-- C9: with every candidate summary succeeding and the ledger containing only
rows `recordERC20Approval` can create (approved USDT/USDC rows), the response
of `getConnectedRecipients` (i) succeeds, (ii) is sorted by first-approval
timestamp descending with timestamp-less entries last, (iii) contains exactly
the summaries of candidate recipients whose `hasAnyApproval` flag is true,
where (iv) the candidates are the union of stored-approval recipients and NFT
recipients and (v) `hasAnyApproval` holds exactly when a stored approval row
exists, a live allowance is strictly positive, or the live NFT approval flag
is set. -/
theorem getConnectedRecipients_spec
    (db : Db) (chain : Chain) (contractAddr operator : String)
    (summaries : List RecipientSummary)
    (hop : ¬ operator = "")
    (hwf : ∀ a ∈ db.erc20Approvals, a.isApproved = true ∧
      (jsLower a.tokenContract = jsLower USDT_ADDRESS ∨
       jsLower a.tokenContract = jsLower USDC_ADDRESS))
    (hsum : mapExcept
      (buildRecipientSummary chain contractAddr (jsLower operator)
        (storedApprovalsFor db (jsLower operator)) (operatorNFTs db (jsLower operator))
        db.erc20Pullbacks)
      (candidateRecipients db (jsLower operator)) = .ok summaries) :
    (getConnectedRecipients db chain (some contractAddr) operator).status = 200 ∧
    List.Sorted summaryLE
      (getConnectedRecipients db chain (some contractAddr) operator).recipients ∧
    (∀ s : RecipientSummary,
      s ∈ (getConnectedRecipients db chain (some contractAddr) operator).recipients ↔
      ∃ r, r ∈ candidateRecipients db (jsLower operator) ∧
        buildRecipientSummary chain contractAddr (jsLower operator)
          (storedApprovalsFor db (jsLower operator))
          (operatorNFTs db (jsLower operator)) db.erc20Pullbacks r = .ok s ∧
        s.hasAnyApproval = true) ∧
    (∀ r : String, r ∈ candidateRecipients db (jsLower operator) ↔
      (∃ a ∈ storedApprovalsFor db (jsLower operator), jsLower a.walletAddress = r) ∨
      (∃ n ∈ operatorNFTs db (jsLower operator), jsLower n.recipientAddress = r)) ∧
    (∀ (r : String) (s : RecipientSummary),
      buildRecipientSummary chain contractAddr (jsLower operator)
        (storedApprovalsFor db (jsLower operator)) (operatorNFTs db (jsLower operator))
        db.erc20Pullbacks r = .ok s →
      (s.hasAnyApproval = true ↔
        (∃ a ∈ storedApprovalsFor db (jsLower operator), jsLower a.walletAddress = r) ∨
        (∃ ua : Int,
          jsBigInt? (liveERC20Status chain USDT_ADDRESS r).2 = some ua ∧ 0 < ua) ∨
        (∃ ca : Int,
          jsBigInt? (liveERC20Status chain USDC_ADDRESS r).2 = some ca ∧ 0 < ca) ∨
        liveNFTApproval chain contractAddr r = true)) := by
  have hred := getConnectedRecipients_ok db chain contractAddr operator summaries hop hsum
  refine ⟨?_, ?_, ?_, ?_, ?_⟩
  · rw [hred]
  · rw [hred]
    exact List.sorted_insertionSort summaryLE _
  · intro s
    rw [hred]
    show s ∈ List.insertionSort summaryLE (summaries.filter (·.hasAnyApproval)) ↔ _
    rw [(List.perm_insertionSort summaryLE _).mem_iff, List.mem_filter]
    constructor
    · rintro ⟨hmem, happ⟩
      obtain ⟨r, hr, hok⟩ := (mapExcept_ok_mem _ _ summaries hsum s).mp hmem
      exact ⟨r, hr, hok, happ⟩
    · rintro ⟨r, hr, hok, happ⟩
      exact ⟨(mapExcept_ok_mem _ _ summaries hsum s).mpr ⟨r, hr, hok⟩, happ⟩
  · intro r
    exact mem_candidateRecipients db (jsLower operator) r
  · intro r s hok
    have hsr := storedRow_iff db (jsLower operator) r hwf
    rw [buildRecipientSummary_hasAnyApproval chain contractAddr (jsLower operator)
      (storedApprovalsFor db (jsLower operator)) (operatorNFTs db (jsLower operator))
      db.erc20Pullbacks r s hok]
    constructor
    · rintro (h | h | h | h | h)
      · exact Or.inl (hsr.mp (Or.inl h))
      · exact Or.inl (hsr.mp (Or.inr h))
      · exact Or.inr (Or.inl h)
      · exact Or.inr (Or.inr (Or.inl h))
      · exact Or.inr (Or.inr (Or.inr h))
    · rintro (h | h | h | h)
      · rcases hsr.mpr h with h' | h'
        · exact Or.inl h'
        · exact Or.inr (Or.inl h')
      · exact Or.inr (Or.inr (Or.inl h))
      · exact Or.inr (Or.inr (Or.inr (Or.inl h)))
      · exact Or.inr (Or.inr (Or.inr (Or.inr h)))

/-- The summary of `0xaaa` under the healthy gateway `c8ChainFixed`. -/
def c9Summary : RecipientSummary :=
  mkRecipientSummary c8ChainFixed "0xc" "0xop" (storedApprovalsFor c8Db "0xop")
    (operatorNFTs c8Db "0xop") c8Db.erc20Pullbacks "0xaaa" true true true

/-- Witness for C9: the single-recipient ledger of `c8Db` under the healthy
gateway — all hypotheses hold and the characterisation applies. -/
theorem getConnectedRecipients_spec_witness :
    (¬ "0xop" = "") ∧
    (∀ a ∈ c8Db.erc20Approvals, a.isApproved = true ∧
      (jsLower a.tokenContract = jsLower USDT_ADDRESS ∨
       jsLower a.tokenContract = jsLower USDC_ADDRESS)) ∧
    (mapExcept
      (buildRecipientSummary c8ChainFixed "0xc" (jsLower "0xop")
        (storedApprovalsFor c8Db (jsLower "0xop")) (operatorNFTs c8Db (jsLower "0xop"))
        c8Db.erc20Pullbacks)
      (candidateRecipients c8Db (jsLower "0xop")) = .ok [c9Summary]) ∧
    ((getConnectedRecipients c8Db c8ChainFixed (some "0xc") "0xop").status = 200 ∧
     List.Sorted summaryLE
       (getConnectedRecipients c8Db c8ChainFixed (some "0xc") "0xop").recipients ∧
     (∀ s : RecipientSummary,
       s ∈ (getConnectedRecipients c8Db c8ChainFixed (some "0xc") "0xop").recipients ↔
       ∃ r, r ∈ candidateRecipients c8Db (jsLower "0xop") ∧
         buildRecipientSummary c8ChainFixed "0xc" (jsLower "0xop")
           (storedApprovalsFor c8Db (jsLower "0xop"))
           (operatorNFTs c8Db (jsLower "0xop")) c8Db.erc20Pullbacks r = .ok s ∧
         s.hasAnyApproval = true) ∧
     (∀ r : String, r ∈ candidateRecipients c8Db (jsLower "0xop") ↔
       (∃ a ∈ storedApprovalsFor c8Db (jsLower "0xop"),
         jsLower a.walletAddress = r) ∨
       (∃ n ∈ operatorNFTs c8Db (jsLower "0xop"),
         jsLower n.recipientAddress = r)) ∧
     (∀ (r : String) (s : RecipientSummary),
       buildRecipientSummary c8ChainFixed "0xc" (jsLower "0xop")
         (storedApprovalsFor c8Db (jsLower "0xop"))
         (operatorNFTs c8Db (jsLower "0xop")) c8Db.erc20Pullbacks r = .ok s →
       (s.hasAnyApproval = true ↔
         (∃ a ∈ storedApprovalsFor c8Db (jsLower "0xop"),
           jsLower a.walletAddress = r) ∨
         (∃ ua : Int,
           jsBigInt? (liveERC20Status c8ChainFixed USDT_ADDRESS r).2 = some ua ∧
             0 < ua) ∨
         (∃ ca : Int,
           jsBigInt? (liveERC20Status c8ChainFixed USDC_ADDRESS r).2 = some ca ∧
             0 < ca) ∨
         liveNFTApproval c8ChainFixed "0xc" r = true))) :=
  ⟨by decide, by decide, by rfl,
    getConnectedRecipients_spec c8Db c8ChainFixed "0xc" "0xop" [c9Summary]
      (by decide) (by decide) (by rfl)⟩

end OxCap
